import Mathlib

/-!
Verification of the JSON-to-Terraform multi-cloud deployment tool.

This file gives a shallow embedding, in Lean 4, of the parts of the
repository that the specification makes claims about:

* `terraform-generator/validators/validate_json.py` — the topology
  validator (`validate_topology_file` and its helpers `validate_ip`,
  `validate_cidr`, `check_ip_in_cidr`);
* `clone/topology_cloner.py` — `calculate_vpc_cidr`,
  `collect_all_networks_and_routers`, `modify_topology`;
* `generate/terraform_generator.py` — the public-subnet selection inside
  `create_shared_vpc_folder`;
* `terraform-generator/run_terraform.py` — the ordering of the
  shared-prerequisite unit versus the dependent units in `run_parallel`.

Machine-level details are modelled as follows: IPv4 addresses are natural
numbers below 2^32; Python's `ipaddress.IPv4Address` / `IPv4Network`
parsers are re-implemented over lists of characters (dotted-quad decimal,
no leading zeros in octets, prefix length 0..32, `strict=False` masking of
host bits); fallible parsing returns `Option`.  All definitions are
executable so that concrete counterexamples evaluate by `decide`.
-/

namespace JsonToTerraform

/-! ## Character-level string utilities (models of Python `str` methods) -/

/-- Model of Python `str.split(sep)` for a one-character separator,
restricted to the character-list level.  `"a.b".split "."` gives
`["a","b"]`, and a trailing or leading separator yields an empty chunk,
exactly as in Python. -/
def splitOnChar (c : Char) : List Char → List (List Char)
  | [] => [[]]
  | x :: xs =>
    let r := splitOnChar c xs
    if x = c then [] :: r
    else
      match r with
      | h :: t => (x :: h) :: t
      | [] => [[x]]

/-- Boolean list-level string comparison used throughout: `listPfx p l`
holds iff `p` is a prefix of `l`. -/
def listPfx : List Char → List Char → Bool
  | [], _ => true
  | _ :: _, [] => false
  | a :: as, b :: bs => a = b && listPfx as bs

/-- Model of Python `str.startswith`. -/
def strStartsWith (s pre : String) : Bool :=
  listPfx pre.data s.data

/-- Model of Python `str.endswith`. -/
def strEndsWith (s suf : String) : Bool :=
  listPfx suf.data.reverse s.data.reverse

/-- Membership of a string in a list of strings (Python `in` on a
set or list of strings). -/
def memStr (l : List String) (s : String) : Bool :=
  l.any (fun x => decide (x = s))

/-- The decimal value of an ASCII digit, `none` for any other character. -/
def digitVal (c : Char) : Option Nat :=
  if '0' ≤ c ∧ c ≤ '9' then some (c.toNat - 48) else none

/-- Value of a non-empty all-digit chunk; `none` when the chunk is empty
or contains a non-digit. -/
def digitsVal : List Char → Option Nat
  | [] => none
  | l => l.foldl (fun acc c =>
      match acc, digitVal c with
      | some a, some d => some (a * 10 + d)
      | _, _ => none) (some 0)

/-! ## IPv4 parsing (model of Python `ipaddress`)

`ipaddress.IPv4Address` accepts exactly four dot-separated decimal octets,
each at most three characters, digits only, value at most 255, with
leading zeros rejected.  `ipaddress.IPv4Network(s, strict=False)` accepts
an address optionally followed by `/` and a decimal prefix length at most
32, and masks the host bits of the address.  (Netmask-string forms such as
`10.0.0.0/255.255.255.0` are not modelled; no claim involves them.) -/

/-- Parse one octet as `ipaddress` does: digits only, at most three
characters, no leading zero, value at most 255. -/
def parseOctet (l : List Char) : Option Nat :=
  match digitsVal l with
  | none => none
  | some v =>
    if l.length ≤ 3 ∧ (l.length = 1 ∨ l.head? ≠ some '0') ∧ v ≤ 255 then some v else none

/-- Parse a dotted-quad IPv4 address from a character list into its
32-bit numeric value. -/
def parseIPv4Chars (l : List Char) : Option Nat :=
  match splitOnChar '.' l with
  | [a, b, c, d] =>
    match parseOctet a, parseOctet b, parseOctet c, parseOctet d with
    | some x, some y, some z, some w => some (((x * 256 + y) * 256 + z) * 256 + w)
    | _, _, _, _ => none
  | _ => none

/-- A parsed IPv4 network: masked base address and prefix length. -/
structure Cidr where
  base : Nat
  plen : Nat
deriving DecidableEq, Repr

/-- Number of addresses in the network. -/
def cidrSize (c : Cidr) : Nat := 2 ^ (32 - c.plen)

/-- Parse a prefix length as `ipaddress` does: digits only (leading zeros
allowed there), value at most 32. -/
def parsePlen (l : List Char) : Option Nat :=
  match digitsVal l with
  | none => none
  | some v => if v ≤ 32 then some v else none

/-- Model of `ipaddress.IPv4Network(s, strict=False)`: an address with an
optional `/prefix`, host bits masked away.  A bare address gets prefix 32,
as in Python. -/
def parseCIDRNet (s : String) : Option Cidr :=
  match splitOnChar '/' s.data with
  | [a] => (parseIPv4Chars a).map (fun ip => { base := ip, plen := 32 })
  | [a, pl] =>
    match parseIPv4Chars a, parsePlen pl with
    | some ip, some p => some { base := ip - ip % 2 ^ (32 - p), plen := p }
    | _, _ => none
  | _ => none

/-- `validate_ip` from `validate_json.py`: true iff the string parses as
an IPv4 address. -/
def validate_ip (s : String) : Bool :=
  (parseIPv4Chars s.data).isSome

/-- `validate_cidr` from `validate_json.py`: true iff the string parses as
an IPv4 network with `strict=False`. -/
def validate_cidr (s : String) : Bool :=
  (parseCIDRNet s).isSome

/-- Python `ip in network`: `network_address <= ip <= broadcast_address`. -/
def ipInNet (a : Nat) (c : Cidr) : Bool :=
  decide (c.base ≤ a ∧ a ≤ c.base + (cidrSize c - 1))

/-- `check_ip_in_cidr` from `validate_json.py`: membership of an IP string
in a CIDR string, `false` on any parse failure (the Python code catches
`ValueError` and returns `False`). -/
def check_ip_in_cidr (ip cidr : String) : Bool :=
  match parseIPv4Chars ip.data, parseCIDRNet cidr with
  | some a, some n => ipInNet a n
  | _, _ => false

/-- Dotted-decimal rendering of a 32-bit address,
`str(ipaddress.IPv4Address(n))`. -/
def ipStr (n : Nat) : String :=
  Nat.repr (n / 16777216 % 256) ++ "." ++ Nat.repr (n / 65536 % 256) ++ "." ++
    Nat.repr (n / 256 % 256) ++ "." ++ Nat.repr (n % 256)

/-! ## The topology data model

Typed counterpart of the JSON documents consumed by
`validate_topology_file`.  String-typed fields keep their raw string
values so that the format checks of the validator are performed exactly
as in the code. -/

/-- One network attachment of an instance or a router:
`{"name": ..., "ip": ...}`. -/
structure NetRef where
  name : String
  ip : String
deriving DecidableEq, Repr

/-- JSON `floating_ip` is either a string or a boolean. -/
inductive FloatVal where
  | str (s : String)
  | flag (b : Bool)
deriving DecidableEq, Repr

/-- A VM definition from the `instances` array. -/
structure Instance where
  name : String
  image : String
  cpu : Int
  ram : Rat
  disk : Int
  networks : List NetRef
  cloud_init : Option String
  floating_ip : Option FloatVal
deriving DecidableEq, Repr

/-- A subnet definition from the `networks` array. -/
structure Network where
  name : String
  cidr : String
  gateway_ip : String
deriving DecidableEq, Repr

/-- A static route of a router. -/
structure Route where
  destination : String
  nexthop : String
deriving DecidableEq, Repr

/-- A router definition from the `routers` array. -/
structure Router where
  name : String
  networks : List NetRef
  external : Bool
  routes : List Route
deriving DecidableEq, Repr

/-- A whole topology document. -/
structure Topology where
  instances : List Instance
  networks : List Network
  routers : List Router
deriving DecidableEq, Repr

/-! ## Schema validation (step 2 of `validate_topology_file`)

`TOPOLOGY_SCHEMA` constrains, over the typed document: `minLength 1` on
names and images, `minimum` bounds on `cpu`, `ram`, `disk`, and the
dotted-quad regular expressions on `ip`, `cidr`, `gateway_ip`,
`destination`, `nexthop`.  Type-level violations (wrong JSON types,
missing required keys) cannot occur in the typed model.
`jsonschema.validate` raises a single `ValidationError` — the code's
`except` block therefore appends at most one schema error; the raised
error is modelled as the first violation in document order. -/

/-- Regular expression `^[0-9]{1,3}$` on one chunk. -/
def chunkDigits (maxLen : Nat) (l : List Char) : Bool :=
  !l.isEmpty && decide (l.length ≤ maxLen) && l.all (fun c => (digitVal c).isSome)

/-- Schema pattern `^[0-9]{1,3}\.[0-9]{1,3}\.[0-9]{1,3}\.[0-9]{1,3}$`. -/
def ipPatternChars (l : List Char) : Bool :=
  match splitOnChar '.' l with
  | [a, b, c, d] => chunkDigits 3 a && chunkDigits 3 b && chunkDigits 3 c && chunkDigits 3 d
  | _ => false

/-- The schema's IP pattern on a string field. -/
def ipPattern (s : String) : Bool := ipPatternChars s.data

/-- Schema pattern for CIDR fields: the IP pattern followed by `/` and one
or two digits. -/
def cidrPattern (s : String) : Bool :=
  match splitOnChar '/' s.data with
  | [a, p] => ipPatternChars a && chunkDigits 2 p
  | _ => false

/-- The schema bound `ram >= 0.5` expressed on the rational value: with
`ram.den > 0`, `1/2 <= ram` iff `ram.den <= 2 * ram.num`. -/
def ramAtLeastHalf (r : Rat) : Bool :=
  decide ((r.den : Int) ≤ 2 * r.num)

/-- One violation of `TOPOLOGY_SCHEMA`. -/
inductive SchemaViol where
  | emptyStr (v : String)
  | cpuTooSmall (v : Int)
  | ramTooSmall (v : Rat)
  | diskTooSmall (v : Int)
  | badIpPattern (v : String)
  | badCidrPattern (v : String)
deriving DecidableEq, Repr

/-- Schema violations of one network attachment entry. -/
def refSchemaViols (r : NetRef) : List SchemaViol :=
  (if r.name = "" then [SchemaViol.emptyStr r.name] else []) ++
  (if ipPattern r.ip then [] else [SchemaViol.badIpPattern r.ip])

/-- Schema violations of one instance. -/
def instSchemaViols (i : Instance) : List SchemaViol :=
  (if i.name = "" then [SchemaViol.emptyStr i.name] else []) ++
  (if i.image = "" then [SchemaViol.emptyStr i.image] else []) ++
  (if i.cpu < 1 then [SchemaViol.cpuTooSmall i.cpu] else []) ++
  (if ramAtLeastHalf i.ram then [] else [SchemaViol.ramTooSmall i.ram]) ++
  (if i.disk < 1 then [SchemaViol.diskTooSmall i.disk] else []) ++
  i.networks.flatMap refSchemaViols

/-- Schema violations of one network. -/
def netSchemaViols (n : Network) : List SchemaViol :=
  (if n.name = "" then [SchemaViol.emptyStr n.name] else []) ++
  (if cidrPattern n.cidr then [] else [SchemaViol.badCidrPattern n.cidr]) ++
  (if ipPattern n.gateway_ip then [] else [SchemaViol.badIpPattern n.gateway_ip])

/-- Schema violations of one route. -/
def routeSchemaViols (r : Route) : List SchemaViol :=
  (if cidrPattern r.destination then [] else [SchemaViol.badCidrPattern r.destination]) ++
  (if ipPattern r.nexthop then [] else [SchemaViol.badIpPattern r.nexthop])

/-- Schema violations of one router. -/
def routerSchemaViols (r : Router) : List SchemaViol :=
  (if r.name = "" then [SchemaViol.emptyStr r.name] else []) ++
  r.networks.flatMap refSchemaViols ++
  r.routes.flatMap routeSchemaViols

/-- All violations of `TOPOLOGY_SCHEMA` on a document, in document
order. -/
def schemaViolations (t : Topology) : List SchemaViol :=
  t.instances.flatMap instSchemaViols ++
  t.networks.flatMap netSchemaViols ++
  t.routers.flatMap routerSchemaViols

/-! ## Logic validation (steps 3 to 7 of `validate_topology_file`) -/

/-- One entry of the error list returned by `validate_topology_file`.
Each constructor corresponds to one `errors.append(...)` site; carried
strings are the data interpolated into the message.  The typo-suggestion
text produced by `find_similar_name` for missing networks is presentation
only and is not carried. -/
inductive VError where
  | schemaErr (v : SchemaViol)
  | instNetMissing (inst net : String)
  | instIpInvalid (inst ip : String)
  | instIpOutsideCidr (inst ip cidr : String)
  | instIpDup (inst ip net : String)
  | cloudInitMissing (inst file : String)
  | floatingIpInvalid (inst ip : String)
  | gatewayInvalid (net gw : String)
  | gatewayOutsideCidr (net gw : String)
  | routerNetMissing (router net : String)
  | routerIpInvalid (router ip : String)
  | routerIpOutsideCidr (router ip net cidr : String)
  | routerIpDupRouter (router ip net : String)
  | routerIpConflictInstance (router ip net : String)
  | gatewayMismatch (net gw routerIp : String)
  | routeDestInvalid (router dest : String)
  | routeNexthopInvalid (router nexthop : String)
  | routeNexthopUnreachable (router nexthop : String)
deriving DecidableEq, Repr

/-- Coarse classification of an error by the validation step that can
produce it. -/
inductive EKind where
  | schema
  | inst
  | gw
  | router
  | gwMatch
  | route
deriving DecidableEq, Repr

/-- The step that produces each error constructor. -/
def VError.kind : VError → EKind
  | .schemaErr _ => .schema
  | .instNetMissing _ _ => .inst
  | .instIpInvalid _ _ => .inst
  | .instIpOutsideCidr _ _ _ => .inst
  | .instIpDup _ _ _ => .inst
  | .cloudInitMissing _ _ => .inst
  | .floatingIpInvalid _ _ => .inst
  | .gatewayInvalid _ _ => .gw
  | .gatewayOutsideCidr _ _ => .gw
  | .routerNetMissing _ _ => .router
  | .routerIpInvalid _ _ => .router
  | .routerIpOutsideCidr _ _ _ _ => .router
  | .routerIpDupRouter _ _ _ => .router
  | .routerIpConflictInstance _ _ _ => .router
  | .gatewayMismatch _ _ _ => .gwMatch
  | .routeDestInvalid _ _ => .route
  | .routeNexthopInvalid _ _ => .route
  | .routeNexthopUnreachable _ _ => .route

/-- Whether an error is the schema error of step 2. -/
def VError.isSchemaErr : VError → Bool
  | .schemaErr _ => true
  | _ => false

/-- Step 3: `network_info = {net["name"]: net for net in networks}`.
A Python dict comprehension keyed by name: first occurrence fixes the
position, a later duplicate name overwrites the stored value. -/
def upsertNet (acc : List Network) (n : Network) : List Network :=
  if acc.any (fun m => decide (m.name = n.name)) then
    acc.map (fun m => if m.name = n.name then n else m)
  else acc ++ [n]

/-- The values of the `network_info` dict, in key-insertion order. -/
def netinfo (t : Topology) : List Network :=
  t.networks.foldl upsertNet []

/-- Dict lookup `network_info[name]` (as `Option`). -/
def findNet (ninfo : List Network) (name : String) : Option Network :=
  ninfo.find? (fun n => decide (n.name = name))

/-- `used_ips` / `router_ips`: a dict from network name to the set of IP
strings seen there.  Sets are modelled as lists; only membership is ever
queried, so duplicates are harmless. -/
abbrev UsedMap := List (String × List String)

/-- `m[k]` with default empty set. -/
def lookupSet (m : UsedMap) (k : String) : List String :=
  match m.find? (fun e => decide (e.1 = k)) with
  | some e => e.2
  | none => []

/-- `m.setdefault(k, set()).add(v)`. -/
def addToSet (m : UsedMap) (k v : String) : UsedMap :=
  if m.any (fun e => decide (e.1 = k)) then
    m.map (fun e => if e.1 = k then (e.1, e.2 ++ [v]) else e)
  else m ++ [(k, [v])]

/-- Step 4 inner loop body: one network attachment of one instance.  The
Python `continue` statements become the early branches that leave the
used-IP map unchanged. -/
def instRefCheck (ninfo : List Network) (instName : String)
    (st : List VError × UsedMap) (ref : NetRef) : List VError × UsedMap :=
  match findNet ninfo ref.name with
  | none => (st.1 ++ [VError.instNetMissing instName ref.name], st.2)
  | some net =>
    if validate_ip ref.ip = false then
      (st.1 ++ [VError.instIpInvalid instName ref.ip], st.2)
    else
      let e1 : List VError :=
        if check_ip_in_cidr ref.ip net.cidr then []
        else [VError.instIpOutsideCidr instName ref.ip net.cidr]
      let e2 : List VError :=
        if memStr (lookupSet st.2 ref.name) ref.ip then
          [VError.instIpDup instName ref.ip ref.name]
        else []
      (st.1 ++ e1 ++ e2, addToSet st.2 ref.name ref.ip)

/-- `validate_cloud_init_file`: the filesystem lookup in the
`cloud-init-generator` directory is modelled by the list `avail` of file
names present there; the code accepts the exact name, or the name with
`.json` appended when it does not already end in `.json`. -/
def cloudInitAvailable (avail : List String) (f : String) : Bool :=
  memStr avail f || (!strEndsWith f ".json" && memStr avail (f ++ ".json"))

/-- Step 4 outer loop body: one instance (attachments, then the
cloud-init check, then the `floating_ip` format check). -/
def instChecks (ninfo : List Network) (avail : List String)
    (st : List VError × UsedMap) (i : Instance) : List VError × UsedMap :=
  let st1 := i.networks.foldl (instRefCheck ninfo i.name) st
  let e1 : List VError :=
    match i.cloud_init with
    | some f => if cloudInitAvailable avail f then [] else [VError.cloudInitMissing i.name f]
    | none => []
  let e2 : List VError :=
    match i.floating_ip with
    | some (FloatVal.str s) =>
      if validate_ip s then [] else [VError.floatingIpInvalid i.name s]
    | _ => []
  (st1.1 ++ e1 ++ e2, st1.2)

/-- Step 4: validate all instances, also building `used_ips`. -/
def step4 (ninfo : List Network) (avail : List String) (t : Topology) :
    List VError × UsedMap :=
  t.instances.foldl (instChecks ninfo avail) ([], [])

/-- Step 5: gateway IP format and range, per network of `network_info`. -/
def step5 (ninfo : List Network) : List VError :=
  ninfo.flatMap (fun n =>
    if validate_ip n.gateway_ip = false then [VError.gatewayInvalid n.name n.gateway_ip]
    else if check_ip_in_cidr n.gateway_ip n.cidr = false then
      [VError.gatewayOutsideCidr n.name n.gateway_ip]
    else [])

/-- `router_interface_ips`: a dict from network name to the last recorded
router interface IP. -/
abbrev IfaceMap := List (String × String)

/-- Dict assignment `m[k] = v`. -/
def setIface (m : IfaceMap) (k v : String) : IfaceMap :=
  if m.any (fun e => decide (e.1 = k)) then
    m.map (fun e => if e.1 = k then (e.1, v) else e)
  else m ++ [(k, v)]

/-- Dict lookup on `router_interface_ips`. -/
def lookupIface (m : IfaceMap) (k : String) : Option String :=
  (m.find? (fun e => decide (e.1 = k))).map (fun e => e.2)

/-- Step 6 inner loop body: one interface of one router.  An interface is
recorded in `router_interface_ips` only after passing the existence,
format and range checks; the duplicate-IP and instance-conflict checks
emit errors but do not stop the recording. -/
def routerRefCheck (ninfo : List Network) (usedIps : UsedMap) (routerName : String)
    (st : List VError × UsedMap × IfaceMap) (ref : NetRef) :
    List VError × UsedMap × IfaceMap :=
  match findNet ninfo ref.name with
  | none => (st.1 ++ [VError.routerNetMissing routerName ref.name], st.2)
  | some net =>
    if validate_ip ref.ip = false then
      (st.1 ++ [VError.routerIpInvalid routerName ref.ip], st.2)
    else if check_ip_in_cidr ref.ip net.cidr = false then
      (st.1 ++ [VError.routerIpOutsideCidr routerName ref.ip ref.name net.cidr], st.2)
    else
      let e1 : List VError :=
        if memStr (lookupSet st.2.1 ref.name) ref.ip then
          [VError.routerIpDupRouter routerName ref.ip ref.name]
        else []
      let e2 : List VError :=
        if memStr (lookupSet usedIps ref.name) ref.ip then
          [VError.routerIpConflictInstance routerName ref.ip ref.name]
        else []
      (st.1 ++ e1 ++ e2, addToSet st.2.1 ref.name ref.ip, setIface st.2.2 ref.name ref.ip)

/-- Step 6: validate all routers, building `router_ips` and
`router_interface_ips`. -/
def step6 (ninfo : List Network) (usedIps : UsedMap) (routers : List Router) :
    List VError × UsedMap × IfaceMap :=
  routers.foldl
    (fun st r => r.networks.foldl (routerRefCheck ninfo usedIps r.name) st)
    ([], [], [])

/-- The `router_interface_ips` dict as observed after step 6, for a given
set of available cloud-init files (the file list only influences errors,
never the recorded interface IPs). -/
def router_interface_ips (avail : List String) (t : Topology) : IfaceMap :=
  (step6 (netinfo t) (step4 (netinfo t) avail t).2 t.routers).2.2

/-- Step 6.5: `gateway_ip` must equal the recorded router interface IP. -/
def step65 (ninfo : List Network) (iface : IfaceMap) : List VError :=
  ninfo.flatMap (fun n =>
    match lookupIface iface n.name with
    | some rip => if n.gateway_ip = rip then [] else [VError.gatewayMismatch n.name n.gateway_ip rip]
    | none => [])

/-- Step 7 reachability test: the nexthop lies inside the CIDR of some
network the router lists among its interfaces and that exists in
`network_info`. -/
def nexthopReachable (ninfo : List Network) (r : Router) (nh : String) : Bool :=
  r.networks.any (fun ref =>
    match findNet ninfo ref.name with
    | some net => check_ip_in_cidr nh net.cidr
    | none => false)

/-- Step 7 loop body: static routes of one router. -/
def routeChecks (ninfo : List Network) (r : Router) : List VError :=
  r.routes.flatMap (fun rt =>
    if validate_cidr rt.destination = false then [VError.routeDestInvalid r.name rt.destination]
    else if validate_ip rt.nexthop = false then [VError.routeNexthopInvalid r.name rt.nexthop]
    else if nexthopReachable ninfo r rt.nexthop then []
    else [VError.routeNexthopUnreachable r.name rt.nexthop])

/-- Step 7: validate static routes of all routers. -/
def step7 (ninfo : List Network) (routers : List Router) : List VError :=
  routers.flatMap (routeChecks ninfo)

/-- Step 2 as executed: `jsonschema.validate` raises at the first
violation and the `except ValidationError` block appends that single
error. -/
def schemaBlock (t : Topology) : List VError :=
  match schemaViolations t with
  | [] => []
  | v :: _ => [VError.schemaErr v]

/-- Steps 3 to 7 of `validate_topology_file`: the logic errors, in the
order the code appends them. -/
def logicErrs (avail : List String) (t : Topology) : List VError :=
  let ninfo := netinfo t
  let s4 := step4 ninfo avail t
  let s6 := step6 ninfo s4.2 t.routers
  s4.1 ++ step5 ninfo ++ s6.1 ++ step65 ninfo s6.2.2 ++ step7 ninfo t.routers

/-- `validate_topology_file` after the file has been read and parsed
(steps 2 to 7): returns `(is_valid, errors)`.  The filesystem contents of
the `cloud-init-generator` directory are passed as `avail`. -/
def validate_topology (avail : List String) (t : Topology) : Bool × List VError :=
  let errs := schemaBlock t ++ logicErrs avail t
  (errs.isEmpty, errs)

/-! ## `clone/topology_cloner.py` -/

/-- `modify_topology`: deep-copy the topology (JSON round trip) and append
`_suffix` to every instance, network and router name and to every network
name referenced from an instance attachment or router interface.  On the
typed model the deep copy followed by in-place renames is exactly these
maps. -/
def modify_topology (t : Topology) (sfx : String) : Topology :=
  { instances := t.instances.map (fun i =>
      { i with
        name := i.name ++ "_" ++ sfx,
        networks := i.networks.map (fun r => { r with name := r.name ++ "_" ++ sfx }) }),
    networks := t.networks.map (fun n => { n with name := n.name ++ "_" ++ sfx }),
    routers := t.routers.map (fun r =>
      { r with
        name := r.name ++ "_" ++ sfx,
        networks := r.networks.map (fun x => { x with name := x.name ++ "_" ++ sfx }) }) }

/-- Instance names of a topology. -/
def instanceNames (t : Topology) : List String := t.instances.map Instance.name

/-- Network names of a topology. -/
def networkNames (t : Topology) : List String := t.networks.map Network.name

/-- Router names of a topology. -/
def routerNames (t : Topology) : List String := t.routers.map Router.name

/-- Network names referenced from instance attachments. -/
def instRefNames (t : Topology) : List String :=
  t.instances.flatMap (fun i => i.networks.map NetRef.name)

/-- Network names referenced from router interfaces. -/
def routerRefNames (t : Topology) : List String :=
  t.routers.flatMap (fun r => r.networks.map NetRef.name)

/-- The subnets parsed inside `calculate_vpc_cidr`: each network's `cidr`
through `ipaddress.ip_network(..., strict=False)`, unparseable entries
skipped. -/
def parsedSubnets (networks : List Network) : List Cidr :=
  networks.filterMap (fun n => parseCIDRNet n.cidr)

/-- `calculate_vpc_cidr` from `topology_cloner.py`.  The Python code takes
`octets = str(subnets[0].network_address).split('.')` and then tests
`str(subnet.network_address).startswith(f"{octets[0]}.{octets[1]}")` — a
plain string-prefix test, kept as such here (`strStartsWith`).  The split
of the dotted rendering is computed directly from the numeric octets,
which is what the split returns. -/
def calculate_vpc_cidr (networks : List Network) : String :=
  if networks.isEmpty then "10.0.0.0/16"
  else
    match parsedSubnets networks with
    | [] => "10.0.0.0/16"
    | first :: rest =>
      if (first :: rest).all (fun s => strStartsWith (ipStr s.base)
          (Nat.repr (first.base / 16777216 % 256) ++ "." ++
            Nat.repr (first.base / 65536 % 256))) then
        Nat.repr (first.base / 16777216 % 256) ++ "." ++
          Nat.repr (first.base / 65536 % 256) ++ ".0.0/16"
      else Nat.repr (first.base / 16777216 % 256) ++ ".0.0.0/16"

/-- The claim's reading of `calculate_vpc_cidr` (refinement target, written
from the specification, not from the code): the first-two-octet test is a
numeric test on octets, not a string-prefix test. -/
def calculate_vpc_cidr_claim (networks : List Network) : String :=
  if networks.isEmpty then "10.0.0.0/16"
  else
    match parsedSubnets networks with
    | [] => "10.0.0.0/16"
    | first :: rest =>
      if (first :: rest).all (fun s => decide (s.base / 65536 = first.base / 65536)) then
        Nat.repr (first.base / 16777216 % 256) ++ "." ++
          Nat.repr (first.base / 65536 % 256) ++ ".0.0/16"
      else Nat.repr (first.base / 16777216 % 256) ++ ".0.0.0/16"

/-! ## Public-subnet selection in `create_shared_vpc_folder`
(`generate/terraform_generator.py`, lines 678–702)

The code enumerates `vpc_network.subnets(new_prefix=24)` in reverse and
returns the first `/24` whose canonical string is not in `used_networks`;
`used_networks` holds, for each topology subnet, the string of the `/24`
containing the subnet's network address.  Canonical `/24` strings are in
bijection with their network addresses, so the string set is modelled by
the set of those addresses. -/

/-- The `/24` subnets of a parent network (prefix at most 24; Python
raises `ValueError` otherwise), in address order, as network addresses. -/
def subnets24 (base plen : Nat) : List Nat :=
  (List.range (2 ^ (24 - plen))).map (fun i => base + i * 256)

/-- `used_networks`: the `/24` containing each parsed topology subnet's
network address (`ipaddress.ip_network(f"{net.network_address}/24",
strict=False)`). -/
def usedNet24Keys (nets : List Network) : List Nat :=
  nets.filterMap (fun n => (parseCIDRNet n.cidr).map (fun c => c.base - c.base % 256))

/-- The public-subnet selection of `create_shared_vpc_folder`: first `/24`
from the top of the parent range whose network address is not a used key;
fallback `list(...)[-1]`, the last (highest) `/24`. -/
def select_public_subnet (base plen : Nat) (nets : List Network) : Nat :=
  match (subnets24 base plen).reverse.find?
      (fun s => !(usedNet24Keys nets).any (fun u => decide (u = s))) with
  | some s => s
  | none => (subnets24 base plen).getLastD 0

/-- Overlap of two address ranges. -/
def cidrOverlap (a b : Cidr) : Bool :=
  decide (a.base < b.base + cidrSize b ∧ b.base < a.base + cidrSize a)

/-- The claim's reading of the public-subnet selection (refinement target,
written from the specification): first `/24` from the top that does not
overlap any used subnet. -/
def select_public_subnet_claim (base plen : Nat) (nets : List Network) : Nat :=
  match (subnets24 base plen).reverse.find?
      (fun s => !(parsedSubnets nets).any (fun u => cidrOverlap { base := s, plen := 24 } u)) with
  | some s => s
  | none => (subnets24 base plen).getLastD 0

/-! ## `run_terraform.py`: ordering in `run_parallel`

`run_parallel` is modelled as the sequence of terraform invocations it
performs.  The exit status of each invocation is supplied by the
environment (`RunEnv`); the dependent units run on a thread pool that is
joined before the function continues, so their batch appears as one
contiguous block of events, listed in submission order. -/

/-- Outcome oracle for one run: which folders exist and how each
terraform invocation would exit. -/
structure RunEnv where
  sharedExists : Bool
  folders : List String
  sharedInitOk : Bool
  sharedCmdOk : String → Bool
  unitResult : String → Int

/-- One terraform invocation performed by `run_parallel`. -/
inductive RunEv where
  | sharedInit (ok : Bool)
  | sharedCmd (cmd : String) (ok : Bool)
  | unitCmd (folder : String) (exitCode : Int)
  | sharedDestroy (ok : Bool)
deriving DecidableEq, Repr

/-- The dependent-unit phase: `run_command_safe` on every `openstack_` /
`aws_` folder via the thread pool (skipped when there are none). -/
def depUnitEvents (env : RunEnv) : List RunEv :=
  env.folders.map (fun f => RunEv.unitCmd f (env.unitResult f))

/-- The trailing shared-VPC destroy phase. -/
def sharedDestroyTail (env : RunEnv) (cmd : String) : List RunEv :=
  if env.sharedExists ∧ cmd = "destroy" then
    [RunEv.sharedDestroy (env.sharedCmdOk "destroy")]
  else []

/-- The invocation sequence of `run_parallel(command)`.  The leading
shared-VPC phase runs only for `init`/`apply`; for `apply` it is preceded
by `terraform init` in the shared folder; any shared failure returns from
the function, dropping all later phases.  For `destroy` the shared folder
is handled only after the dependent units. -/
def run_parallel (cmd : String) (env : RunEnv) : List RunEv :=
  if env.folders.isEmpty ∧ env.sharedExists = false then []
  else if env.sharedExists ∧ (cmd = "init" ∨ cmd = "apply") then
    if cmd = "apply" ∧ env.sharedInitOk = false then [RunEv.sharedInit false]
    else
      let initEvs := if cmd = "apply" then [RunEv.sharedInit true] else []
      if env.sharedCmdOk cmd = false then initEvs ++ [RunEv.sharedCmd cmd false]
      else initEvs ++ [RunEv.sharedCmd cmd true] ++ depUnitEvents env ++ sharedDestroyTail env cmd
  else depUnitEvents env ++ sharedDestroyTail env cmd

/-! ## Object-identity model of the cloner

Whether `modify_topology` and `collect_all_networks_and_routers` return
deep copies is a question about Python object identity, invisible in the
typed value model.  Here the JSON objects are modelled with explicit
identity tags: every mutable Python object (dict or list) carries a
`Nat` id; two occurrences of the same id denote the same heap object.
The shapes are those of topology documents: attachment and route dicts
are flat string dicts (`DictS`), instance/network/router dicts (`ObjD`)
map field names to scalars, lists of scalars (such as a network `pool`)
or lists of flat dicts.  Fresh objects take ids from a counter that is
threaded through and only ever increased. -/

/-- A flat dict of scalars with identity (an attachment `{name, ip}` or a
route `{destination, nexthop}`). -/
structure DictS where
  id : Nat
  fields : List (String × String)
deriving DecidableEq, Repr

/-- A field value of a resource dict. -/
inductive FVal where
  | prim (s : String)
  | arrPrim (aid : Nat) (xs : List String)
  | arrDict (aid : Nat) (xs : List DictS)
deriving DecidableEq, Repr

/-- A resource dict (instance, network or router) with identity. -/
structure ObjD where
  id : Nat
  fields : List (String × FVal)
deriving DecidableEq, Repr

/-- A topology document at the identity level. -/
structure TopoV where
  tid : Nat
  instancesId : Nat
  instances : List ObjD
  networksId : Nat
  networks : List ObjD
  routersId : Nat
  routers : List ObjD
deriving DecidableEq, Repr

/-- Ids of the mutable objects reachable from a field value. -/
def FVal.mutIds : FVal → List Nat
  | .prim _ => []
  | .arrPrim a _ => [a]
  | .arrDict a xs => a :: xs.map DictS.id

/-- Ids of the mutable objects reachable from a resource dict. -/
def ObjD.mutIds (o : ObjD) : List Nat :=
  o.id :: o.fields.flatMap (fun f => f.2.mutIds)

/-- Ids of all mutable objects of a topology document. -/
def TopoV.mutIds (t : TopoV) : List Nat :=
  [t.tid, t.instancesId, t.networksId, t.routersId] ++
    t.instances.flatMap ObjD.mutIds ++
    t.networks.flatMap ObjD.mutIds ++
    t.routers.flatMap ObjD.mutIds

/-- Dict assignment `d[k] = v` on a flat dict: overwrite in place or
append. -/
def upsertStr (fs : List (String × String)) (k v : String) : List (String × String) :=
  if fs.any (fun e => decide (e.1 = k)) then
    fs.map (fun e => if e.1 = k then (e.1, v) else e)
  else fs ++ [(k, v)]

/-- Dict assignment `o[k] = v` on a resource dict. -/
def upsertFld (fs : List (String × FVal)) (k : String) (v : FVal) : List (String × FVal) :=
  if fs.any (fun e => decide (e.1 = k)) then
    fs.map (fun e => if e.1 = k then (e.1, v) else e)
  else fs ++ [(k, v)]

/-- Field read returning the raw value. -/
def getFld (o : ObjD) (k : String) : Option FVal :=
  (o.fields.find? (fun e => decide (e.1 = k))).map (fun e => e.2)

/-- Field read of a string field (`o['name']`; name fields are JSON
strings in every topology document). -/
def getStr (o : ObjD) (k : String) : String :=
  match getFld o k with
  | some (FVal.prim s) => s
  | _ => ""

/-- Field read of a string field of a flat dict. -/
def getStrD (d : DictS) (k : String) : String :=
  match d.fields.find? (fun e => decide (e.1 = k)) with
  | some e => e.2
  | none => ""

/-- `net.copy()` followed by `copy['name'] = name + "_" + suffix`: a new
top-level dict (fresh id) whose other values are the very same objects as
the input's (shallow copy). -/
def cloneNetShallow (sfx : String) (fresh : Nat) (net : ObjD) : ObjD × Nat :=
  ({ id := fresh, fields := upsertFld net.fields "name" (FVal.prim (getStr net "name" ++ "_" ++ sfx)) },
    fresh + 1)

/-- `[{**net_ref, 'name': f"{net_ref['name']}_{suffix}"} for net_ref in ...]`:
fresh dicts with copied scalar fields and a rewritten name. -/
def cloneRefDicts (sfx : String) (fresh : Nat) : List DictS → List DictS × Nat
  | [] => ([], fresh)
  | d :: ds =>
    let c : DictS := { id := fresh, fields := upsertStr d.fields "name" (getStrD d "name" ++ "_" ++ sfx) }
    let r := cloneRefDicts sfx (fresh + 1) ds
    (c :: r.1, r.2)

/-- `router.copy()` with rewritten name, a freshly built `networks` list
of freshly built attachment dicts, and for AWS a freshly built empty
`routes` list. -/
def cloneRouterShallow (provider sfx : String) (fresh : Nat) (r : ObjD) : ObjD × Nat :=
  let c0 : List (String × FVal) :=
    upsertFld r.fields "name" (FVal.prim (getStr r "name" ++ "_" ++ sfx))
  let refs : List DictS :=
    match getFld r "networks" with
    | some (FVal.arrDict _ xs) => xs
    | _ => []
  let rc := cloneRefDicts sfx fresh refs
  let c1 := upsertFld c0 "networks" (FVal.arrDict rc.2 rc.1)
  if provider = "aws" then
    ({ id := rc.2 + 2, fields := upsertFld c1 "routes" (FVal.arrDict (rc.2 + 1) []) }, rc.2 + 3)
  else
    ({ id := rc.2 + 1, fields := c1 }, rc.2 + 2)

/-- Clone every network of the input for one suffix. -/
def cloneNetsForSuffix (sfx : String) (fresh : Nat) : List ObjD → List ObjD × Nat
  | [] => ([], fresh)
  | n :: ns =>
    let c := cloneNetShallow sfx fresh n
    let r := cloneNetsForSuffix sfx c.2 ns
    (c.1 :: r.1, r.2)

/-- Clone every router of the input for one suffix. -/
def cloneRoutersForSuffix (provider sfx : String) (fresh : Nat) : List ObjD → List ObjD × Nat
  | [] => ([], fresh)
  | r :: rs =>
    let c := cloneRouterShallow provider sfx fresh r
    let rest := cloneRoutersForSuffix provider sfx c.2 rs
    (c.1 :: rest.1, rest.2)

/-- `collect_all_networks_and_routers` at the identity level: for each
suffix, append the suffixed shallow network copies and router copies. -/
def collect_networks_routers (t : TopoV) (provider : String) (fresh : Nat) :
    List String → List ObjD × List ObjD × Nat
  | [] => ([], [], fresh)
  | sfx :: rest =>
    let ns := cloneNetsForSuffix sfx fresh t.networks
    let rs := cloneRoutersForSuffix provider sfx ns.2 t.routers
    let tail := collect_networks_routers t provider rs.2 rest
    (ns.1 ++ tail.1, rs.1 ++ tail.2.1, tail.2.2)

/-- Deep copy of a list of flat dicts (fresh dict ids, copied fields). -/
def copyDicts (fresh : Nat) : List DictS → List DictS × Nat
  | [] => ([], fresh)
  | d :: ds =>
    let r := copyDicts (fresh + 1) ds
    ({ id := fresh, fields := d.fields } :: r.1, r.2)

/-- Deep copy of a field value (`json.loads(json.dumps(...))`): scalars
are immutable, every list and dict is rebuilt with a fresh id. -/
def FVal.deepCopy (fresh : Nat) : FVal → FVal × Nat
  | .prim s => (.prim s, fresh)
  | .arrPrim _ xs => (.arrPrim fresh xs, fresh + 1)
  | .arrDict _ xs =>
    let r := copyDicts fresh xs
    (.arrDict r.2 r.1, r.2 + 1)

/-- Deep copy of the fields of a resource dict. -/
def copyFields (fresh : Nat) : List (String × FVal) → List (String × FVal) × Nat
  | [] => ([], fresh)
  | f :: fs =>
    let v := FVal.deepCopy fresh f.2
    let r := copyFields v.2 fs
    ((f.1, v.1) :: r.1, r.2)

/-- Deep copy of a resource dict. -/
def ObjD.deepCopy (fresh : Nat) (o : ObjD) : ObjD × Nat :=
  let r := copyFields fresh o.fields
  ({ id := r.2, fields := r.1 }, r.2 + 1)

/-- Deep copy of a list of resource dicts. -/
def copyObjs (fresh : Nat) : List ObjD → List ObjD × Nat
  | [] => ([], fresh)
  | o :: os =>
    let c := ObjD.deepCopy fresh o
    let r := copyObjs c.2 os
    (c.1 :: r.1, r.2)

/-- Deep copy of a topology document (`json.loads(json.dumps(topology))`). -/
def TopoV.deepCopy (fresh : Nat) (t : TopoV) : TopoV × Nat :=
  let a := copyObjs fresh t.instances
  let b := copyObjs a.2 t.networks
  let c := copyObjs b.2 t.routers
  ({ tid := c.2, instancesId := c.2 + 1, instances := a.1,
     networksId := c.2 + 2, networks := b.1,
     routersId := c.2 + 3, routers := c.1 }, c.2 + 4)

/-- In-place rename of the `name` fields inside a `networks` attachment
list (`net['name'] = f"{net['name']}_{suffix}"`): dict ids unchanged. -/
def renameRefsVal (sfx : String) : FVal → FVal
  | .arrDict a xs =>
    .arrDict a (xs.map (fun d =>
      { d with fields := upsertStr d.fields "name" (getStrD d "name" ++ "_" ++ sfx) }))
  | v => v

/-- In-place rename of a resource dict's own name. -/
def renameName (sfx : String) (o : ObjD) : ObjD :=
  { o with fields := upsertFld o.fields "name" (FVal.prim (getStr o "name" ++ "_" ++ sfx)) }

/-- In-place rename of a resource dict's own name and of the names inside
its `networks` attachment list. -/
def renameWithRefs (sfx : String) (o : ObjD) : ObjD :=
  let o1 := renameName sfx o
  { o1 with fields := o1.fields.map (fun f =>
      if f.1 = "networks" then (f.1, renameRefsVal sfx f.2) else f) }

/-- `modify_topology` at the identity level: deep copy, then in-place
renames on the copy. -/
def modify_topology_heap (t : TopoV) (sfx : String) (fresh : Nat) : TopoV × Nat :=
  let c := t.deepCopy fresh
  ({ c.1 with
     instances := c.1.instances.map (renameWithRefs sfx),
     networks := c.1.networks.map (renameName sfx),
     routers := c.1.routers.map (renameWithRefs sfx) }, c.2)

/-! ## Concrete fixtures used by witnesses and counterexamples -/

/-- A network and a router agreeing on the gateway. -/
def netFix : Network := { name := "net1", cidr := "10.0.0.0/24", gateway_ip := "10.0.0.1" }

/-- A router whose interface on `net1` is the gateway IP and whose one
route has nexthop inside `net1`. -/
def routerFix : Router :=
  { name := "r1", networks := [{ name := "net1", ip := "10.0.0.1" }], external := true,
    routes := [{ destination := "192.168.5.0/24", nexthop := "10.0.0.254" }] }

/-- A valid one-network one-router topology. -/
def topoFix : Topology := { instances := [], networks := [netFix], routers := [routerFix] }

/-- An instance with two schema violations: empty name and `cpu = 0`. -/
def instBad : Instance :=
  { name := "", image := "web", cpu := 0, ram := 1, disk := 1, networks := [],
    cloud_init := none, floating_ip := none }

/-- A document carrying two schema violations. -/
def topoTwoViol : Topology := { instances := [instBad], networks := [], routers := [] }

/-- An instance named `n`, with no attachments. -/
def mkInst (n : String) : Instance :=
  { name := n, image := "img", cpu := 1, ram := 1, disk := 1, networks := [],
    cloud_init := none, floating_ip := none }

/-- Base topology for the suffix-collision counterexample: instance names
`x` and `x_b`. -/
def topoCollide : Topology :=
  { instances := [mkInst "x", mkInst "x_b"], networks := [], routers := [] }

/-- Networks whose first octets differ (10.1 versus 10.10) but whose
dotted renderings share the string prefix `10.1`. -/
def netsPfx : List Network :=
  [{ name := "n1", cidr := "10.1.0.0/24", gateway_ip := "10.1.0.1" },
   { name := "n2", cidr := "10.10.0.0/24", gateway_ip := "10.10.0.1" }]

/-- A used subnet larger than a `/24`: `10.0.254.0/23`. -/
def netsWide : List Network :=
  [{ name := "n", cidr := "10.0.254.0/23", gateway_ip := "10.0.254.1" }]

/-- An environment with a shared-VPC folder and one dependent unit. -/
def envFix : RunEnv :=
  { sharedExists := true, folders := ["aws_1"], sharedInitOk := true,
    sharedCmdOk := fun _ => true, unitResult := fun _ => 0 }

/-- Identity-level topology with one network holding a mutable `pool`
list (id 3). -/
def topoHeapFix : TopoV :=
  { tid := 0, instancesId := 1, instances := [],
    networksId := 4,
    networks := [{ id := 2,
                   fields := [("name", FVal.prim "n"),
                              ("cidr", FVal.prim "10.0.0.0/24"),
                              ("pool", FVal.arrPrim 3 ["10.0.0.5"])] }],
    routersId := 5, routers := [] }

/-! ## Helper lemmas -/

lemma listPfx_append (l t : List Char) : listPfx l (l ++ t) = true := by
  induction l with
  | nil => rfl
  | cons x xs ih => simp [listPfx, ih]

lemma parseCIDRNet_masked (s : String) (c : Cidr) (h : parseCIDRNet s = some c) :
    c.base % cidrSize c = 0 := by
  unfold parseCIDRNet at h
  split at h
  · simp only [Option.map_eq_some'] at h
    rcases h with ⟨ip, _, hc2⟩
    subst hc2
    simp [cidrSize, Nat.mod_one]
  · split at h
    · rename_i ip p _ _
      injection h with h2
      subst h2
      have hm : ip - ip % 2 ^ (32 - p) = 2 ^ (32 - p) * (ip / 2 ^ (32 - p)) := by
        have := Nat.div_add_mod ip (2 ^ (32 - p))
        omega
      simp [cidrSize, hm, Nat.mul_mod_right]
    · exact absurd h (by simp)
  · exact absurd h (by simp)

lemma parseCIDRNet_plen_le (s : String) (c : Cidr) (h : parseCIDRNet s = some c) :
    c.plen ≤ 32 := by
  unfold parseCIDRNet at h
  split at h
  · simp only [Option.map_eq_some'] at h
    rcases h with ⟨ip, _, hc2⟩
    subst hc2
    simp
  · split at h
    · rename_i ip p ha hp
      injection h with h2
      subst h2
      unfold parsePlen at hp
      split at hp
      · exact absurd hp (by simp)
      · split at hp
        · injection hp with hp2
          simpa [← hp2] using by assumption
        · exact absurd hp (by simp)
    · exact absurd h (by simp)
  · exact absurd h (by simp)

lemma mem_range_iff_div_eq (a b m : Nat) (hm : 0 < m) (hb : b % m = 0) :
    (b ≤ a ∧ a ≤ b + (m - 1)) ↔ a / m = b / m := by
  have hb' : m * (b / m) = b := by
    have := Nat.div_add_mod b m
    omega
  constructor
  · rintro ⟨h1, h2⟩
    refine Nat.le_antisymm ?_ (Nat.div_le_div_right h1)
    have h3 : a < (b / m + 1) * m := by
      have hx : (b / m + 1) * m = b + m := by
        rw [Nat.add_mul, one_mul, Nat.mul_comm]
        omega
      omega
    exact Nat.lt_succ_iff.mp ((Nat.div_lt_iff_lt_mul hm).mpr h3)
  · intro h
    have ha := Nat.div_add_mod a m
    have hmod := Nat.mod_lt a hm
    have hab : m * (a / m) = b := by
      rw [← h] at hb'
      exact hb'
    omega

lemma append_suffix_inj (a b s1 s2 : String) (hlen : s1.length = s2.length)
    (h : a ++ "_" ++ s1 = b ++ "_" ++ s2) : s1 = s2 := by
  have h2 : a ++ ("_" ++ s1) = b ++ ("_" ++ s2) := by
    rw [← String.append_assoc, ← String.append_assoc]
    exact h
  have hu : ("_" : String).data = ['_'] := rfl
  have hd : a.data ++ ('_' :: s1.data) = b.data ++ ('_' :: s2.data) := by
    have h3 := congrArg String.data h2
    simpa [String.data_append, hu] using h3
  have hlen2 : ('_' :: s1.data).length = ('_' :: s2.data).length := by
    simpa using hlen
  have h4 := (List.append_inj' hd hlen2).2
  injection h4 with _ h5
  cases s1
  cases s2
  exact congrArg String.mk h5

lemma ipStr_startsWith_two (x : Nat) :
    strStartsWith (ipStr x)
      (Nat.repr (x / 16777216 % 256) ++ "." ++ Nat.repr (x / 65536 % 256)) = true := by
  have hdot : ("." : String).data = ['.'] := rfl
  have hsplit : (ipStr x).data =
      (Nat.repr (x / 16777216 % 256) ++ "." ++ Nat.repr (x / 65536 % 256)).data ++
        ("." ++ Nat.repr (x / 256 % 256) ++ "." ++ Nat.repr (x % 256)).data := by
    simp [ipStr, String.data_append, hdot]
  rw [strStartsWith, hsplit]
  exact listPfx_append _ _

lemma octets_eq_of_div (s c : Nat) (h : s / 65536 = c / 65536) :
    s / 16777216 % 256 = c / 16777216 % 256 ∧ s / 65536 % 256 = c / 65536 % 256 := by
  have h1 : s / 16777216 = s / 65536 / 256 := by
    rw [Nat.div_div_eq_div_mul]
  have h2 : c / 16777216 = c / 65536 / 256 := by
    rw [Nat.div_div_eq_div_mul]
  rw [h1, h2, h]
  exact ⟨rfl, rfl⟩

lemma append_dot00_slash16 (x : String) : (x ++ ".0.0") ++ "/16" = x ++ ".0.0/16" := by
  rw [String.append_assoc]
  rw [(by decide : (".0.0" : String) ++ "/16" = ".0.0/16")]

lemma append_dot000_slash16 (x : String) : (x ++ ".0.0.0") ++ "/16" = x ++ ".0.0.0/16" := by
  rw [String.append_assoc]
  rw [(by decide : (".0.0.0" : String) ++ "/16" = ".0.0.0/16")]

/-! ## Claim C7: `check_ip_in_cidr` -/

/-- C7: for every string that parses as a CIDR, `check_ip_in_cidr ip cidr`
is true iff `ip` parses as an IPv4 address inside the CIDR's address range
(equivalently, iff its address has the same `/plen` bucket as the base);
on a malformed IP or a malformed CIDR it returns `false` instead of
raising (the Python code catches `ValueError`). -/
theorem check_ip_in_cidr_correct (ip cidr : String) (c : Cidr)
    (hc : parseCIDRNet cidr = some c) :
    (check_ip_in_cidr ip cidr = true ↔
      ∃ a, parseIPv4Chars ip.data = some a ∧ c.base ≤ a ∧ a ≤ c.base + (cidrSize c - 1)) ∧
    (check_ip_in_cidr ip cidr = true ↔
      ∃ a, parseIPv4Chars ip.data = some a ∧ a / cidrSize c = c.base / cidrSize c) ∧
    (parseIPv4Chars ip.data = none → check_ip_in_cidr ip cidr = false) ∧
    (∀ s, parseCIDRNet s = none → check_ip_in_cidr ip s = false) := by
  have hmask := parseCIDRNet_masked cidr c hc
  have hpos : 0 < cidrSize c := Nat.pos_pow_of_pos _ (by norm_num)
  refine ⟨?_, ?_, ?_, ?_⟩
  · unfold check_ip_in_cidr
    rw [hc]
    rcases hp : parseIPv4Chars ip.data with _ | a
    · simp
    · simp [ipInNet]
  · unfold check_ip_in_cidr
    rw [hc]
    rcases hp : parseIPv4Chars ip.data with _ | a
    · simp
    · simp [ipInNet, ← mem_range_iff_div_eq a c.base (cidrSize c) hpos hmask]
  · intro h
    unfold check_ip_in_cidr
    rw [h]
  · intro s h
    unfold check_ip_in_cidr
    rw [h]
    rcases parseIPv4Chars ip.data <;> rfl

/-- C7 witness: `10.0.0.200` inside `10.0.0.0/24`. -/
theorem check_ip_in_cidr_correct_witness :
    check_ip_in_cidr "10.0.0.200" "10.0.0.0/24" = true ↔
      ∃ a, parseIPv4Chars "10.0.0.200".data = some a ∧
        167772160 ≤ a ∧ a ≤ 167772160 + (cidrSize { base := 167772160, plen := 24 } - 1) :=
  (check_ip_in_cidr_correct "10.0.0.200" "10.0.0.0/24"
    { base := 167772160, plen := 24 } (by decide)).1

/-! ## Claim C10: `modify_topology` renames only -/

/-- C10: `modify_topology` changes exactly the name fields (resource names
and the network names inside attachments and interfaces), appending
`_suffix`; every other field — attachment and interface IPs, CIDRs,
gateway IPs, routes, image, cpu, ram, disk, cloud-init, floating IP,
external flag — is kept identical to the base topology. -/
theorem modify_topology_only_renames (t : Topology) (sfx : String) :
    networkNames (modify_topology t sfx) = (networkNames t).map (fun n => n ++ "_" ++ sfx) ∧
    (modify_topology t sfx).networks.map Network.cidr = t.networks.map Network.cidr ∧
    (modify_topology t sfx).networks.map Network.gateway_ip = t.networks.map Network.gateway_ip ∧
    instanceNames (modify_topology t sfx) = (instanceNames t).map (fun n => n ++ "_" ++ sfx) ∧
    (modify_topology t sfx).instances.map
        (fun i => (i.image, i.cpu, i.ram, i.disk, i.cloud_init, i.floating_ip)) =
      t.instances.map (fun i => (i.image, i.cpu, i.ram, i.disk, i.cloud_init, i.floating_ip)) ∧
    (modify_topology t sfx).instances.map (fun i => i.networks.map NetRef.ip) =
      t.instances.map (fun i => i.networks.map NetRef.ip) ∧
    (modify_topology t sfx).instances.map (fun i => i.networks.map NetRef.name) =
      t.instances.map (fun i => i.networks.map (fun r => r.name ++ "_" ++ sfx)) ∧
    routerNames (modify_topology t sfx) = (routerNames t).map (fun n => n ++ "_" ++ sfx) ∧
    (modify_topology t sfx).routers.map Router.external = t.routers.map Router.external ∧
    (modify_topology t sfx).routers.map Router.routes = t.routers.map Router.routes ∧
    (modify_topology t sfx).routers.map (fun r => r.networks.map NetRef.ip) =
      t.routers.map (fun r => r.networks.map NetRef.ip) ∧
    (modify_topology t sfx).routers.map (fun r => r.networks.map NetRef.name) =
      t.routers.map (fun r => r.networks.map (fun x => x.name ++ "_" ++ sfx)) := by
  refine ⟨?_, ?_, ?_, ?_, ?_, ?_, ?_, ?_, ?_, ?_, ?_, ?_⟩ <;>
    simp [modify_topology, networkNames, instanceNames, routerNames, List.map_map,
      Function.comp_def]

/-! ## Claim C3: clone name disjointness -/

/-- C3 counterexample: the duplicate-free suffix set `{"a", "b_a"}` does
not give disjoint clones on a base topology with instance names `x` and
`x_b`: both clones contain an instance named `x_b_a`. -/
theorem clone_suffix_disjoint_cex :
    ("a" : String) ≠ "b_a" ∧
    "x_b_a" ∈ instanceNames (modify_topology topoCollide "a") ∧
    "x_b_a" ∈ instanceNames (modify_topology topoCollide "b_a") := by decide

/-- C3 amended: for suffixes of equal length (as the fixed-length random
tokens the generator produces), distinct suffixes give clones with
pairwise disjoint instance, network and router name sets, and every
internal network-name reference is rewritten consistently with the
network names. -/
theorem modify_topology_disjoint (t : Topology) (s1 s2 : String)
    (hlen : s1.length = s2.length) (hne : s1 ≠ s2) :
    (∀ n, n ∈ instanceNames (modify_topology t s1) →
      n ∉ instanceNames (modify_topology t s2)) ∧
    (∀ n, n ∈ networkNames (modify_topology t s1) →
      n ∉ networkNames (modify_topology t s2)) ∧
    (∀ n, n ∈ routerNames (modify_topology t s1) →
      n ∉ routerNames (modify_topology t s2)) ∧
    (∀ s, instRefNames (modify_topology t s) = (instRefNames t).map (fun x => x ++ "_" ++ s)) ∧
    (∀ s, routerRefNames (modify_topology t s) =
      (routerRefNames t).map (fun x => x ++ "_" ++ s)) := by
  refine ⟨?_, ?_, ?_, ?_, ?_⟩
  · intro n h1 h2
    simp [instanceNames, modify_topology, List.map_map, Function.comp_def] at h1 h2
    rcases h1 with ⟨i1, _, he1⟩
    rcases h2 with ⟨i2, _, he2⟩
    exact hne (append_suffix_inj i1.name i2.name s1 s2 hlen (he1.trans he2.symm))
  · intro n h1 h2
    simp [networkNames, modify_topology, List.map_map, Function.comp_def] at h1 h2
    rcases h1 with ⟨i1, _, he1⟩
    rcases h2 with ⟨i2, _, he2⟩
    exact hne (append_suffix_inj i1.name i2.name s1 s2 hlen (he1.trans he2.symm))
  · intro n h1 h2
    simp [routerNames, modify_topology, List.map_map, Function.comp_def] at h1 h2
    rcases h1 with ⟨i1, _, he1⟩
    rcases h2 with ⟨i2, _, he2⟩
    exact hne (append_suffix_inj i1.name i2.name s1 s2 hlen (he1.trans he2.symm))
  · intro s
    simp [instRefNames, modify_topology, List.flatMap_map, List.map_flatMap,
      List.map_map, Function.comp_def]
  · intro s
    simp [routerRefNames, modify_topology, List.flatMap_map, List.map_flatMap,
      List.map_map, Function.comp_def]

/-- C3 witness: equal-length distinct suffixes `a`, `b` on the collision
fixture. -/
theorem modify_topology_disjoint_witness :
    "x_a" ∉ instanceNames (modify_topology topoCollide "b") :=
  (modify_topology_disjoint topoCollide "a" "b" rfl (by decide)).1 "x_a" (by decide)

/-! ## Claim C5: `calculate_vpc_cidr` -/

/-- C5 counterexample: subnets `10.1.0.0/24` and `10.10.0.0/24` do not
share their first two octets (buckets 2561 versus 2570), so the claim
demands the fallback `10.0.0.0/16`, but the code's string-prefix test
accepts `10.10.0.0` against `10.1` and returns `10.1.0.0/16`. -/
theorem calculate_vpc_cidr_cex :
    (parsedSubnets netsPfx).map (fun c => c.base / 65536) = [2561, 2570] ∧
    calculate_vpc_cidr netsPfx = "10.1.0.0/16" ∧
    calculate_vpc_cidr_claim netsPfx = "10.0.0.0/16" := by decide

/-- C5 amended: empty or unparseable input falls back to `10.0.0.0/16`;
when all parsed subnets share the first two octets of the first subnet the
result is `a.b.0.0/16`; the `a.0.0.0/16` fallback fires exactly when the
code's string-prefix test (not the numeric octet test) fails for some
subnet; the result is always a `/16` string. -/
theorem calculate_vpc_cidr_cases (networks : List Network) :
    (networks = [] → calculate_vpc_cidr networks = "10.0.0.0/16") ∧
    (parsedSubnets networks = [] → calculate_vpc_cidr networks = "10.0.0.0/16") ∧
    (∀ c rest, parsedSubnets networks = c :: rest →
      ((∀ s ∈ parsedSubnets networks, s.base / 65536 = c.base / 65536) →
        calculate_vpc_cidr networks =
          Nat.repr (c.base / 16777216 % 256) ++ "." ++
            Nat.repr (c.base / 65536 % 256) ++ ".0.0/16") ∧
      ((¬ ∀ s ∈ parsedSubnets networks,
          strStartsWith (ipStr s.base)
            (Nat.repr (c.base / 16777216 % 256) ++ "." ++
              Nat.repr (c.base / 65536 % 256)) = true) →
        calculate_vpc_cidr networks = Nat.repr (c.base / 16777216 % 256) ++ ".0.0.0/16")) ∧
    (∃ x, calculate_vpc_cidr networks = x ++ "/16") := by
  refine ⟨?_, ?_, ?_, ?_⟩
  · intro h
    subst h
    rfl
  · intro h
    rcases hn : networks with _ | ⟨n, ns⟩
    · rfl
    · rw [← hn]
      unfold calculate_vpc_cidr
      rw [h]
      simp [hn]
  · intro c rest hps
    have hne : networks.isEmpty = false := by
      rcases networks with _ | _
      · simp [parsedSubnets] at hps
      · rfl
    constructor
    · intro hall
      have hstart : ∀ s ∈ parsedSubnets networks,
          strStartsWith (ipStr s.base)
            (Nat.repr (c.base / 16777216 % 256) ++ "." ++
              Nat.repr (c.base / 65536 % 256)) = true := by
        intro s hs
        rcases octets_eq_of_div s.base c.base (hall s hs) with ⟨h0, h1⟩
        rw [← h0, ← h1]
        exact ipStr_startsWith_two s.base
      unfold calculate_vpc_cidr
      rw [hne, hps]
      simp only [Bool.false_eq_true, if_false]
      have hcond : (c :: rest).all (fun s =>
          strStartsWith (ipStr s.base)
            (Nat.repr (c.base / 16777216 % 256) ++ "." ++
              Nat.repr (c.base / 65536 % 256))) = true := by
        rw [List.all_eq_true]
        intro s hs
        exact hstart s (hps ▸ hs)
      rw [hcond]
      simp
    · intro hnall
      unfold calculate_vpc_cidr
      rw [hne, hps]
      simp only [Bool.false_eq_true, if_false]
      have hcond : (c :: rest).all (fun s =>
          strStartsWith (ipStr s.base)
            (Nat.repr (c.base / 16777216 % 256) ++ "." ++
              Nat.repr (c.base / 65536 % 256))) = false := by
        cases h : (c :: rest).all (fun s =>
            strStartsWith (ipStr s.base)
              (Nat.repr (c.base / 16777216 % 256) ++ "." ++
                Nat.repr (c.base / 65536 % 256)))
        · rfl
        · exact absurd (fun s hs => List.all_eq_true.mp h s (hps ▸ hs)) hnall
      rw [hcond]
      simp
  · unfold calculate_vpc_cidr
    split
    · exact ⟨"10.0.0.0", by decide⟩
    · split
      · exact ⟨"10.0.0.0", by decide⟩
      · rename_i first rest heq
        split
        · exact ⟨Nat.repr (first.base / 16777216 % 256) ++ "." ++
            Nat.repr (first.base / 65536 % 256) ++ ".0.0",
            (append_dot00_slash16 _).symm⟩
        · exact ⟨Nat.repr (first.base / 16777216 % 256) ++ ".0.0.0",
            (append_dot000_slash16 _).symm⟩

/-- C5 witness: the empty input takes the default branch. -/
theorem calculate_vpc_cidr_cases_witness :
    calculate_vpc_cidr [] = "10.0.0.0/16" :=
  (calculate_vpc_cidr_cases []).1 rfl

/-! ## Claim C9: shared-unit ordering in `run_parallel` -/

/-- C9: when the shared-VPC folder exists, `init`/`apply` run it to
completion first and abort the run (no dependent unit is invoked) if it
fails, and on success the dependent units run strictly after it; for
`destroy` the dependent units all run before the shared folder is
destroyed. -/
theorem run_parallel_shared_ordering (env : RunEnv) (cmd : String)
    (hsh : env.sharedExists = true) :
    ((cmd = "init" ∨ cmd = "apply") →
      (((cmd = "apply" ∧ env.sharedInitOk = false) ∨ env.sharedCmdOk cmd = false) →
        ∀ f c, RunEv.unitCmd f c ∉ run_parallel cmd env) ∧
      (¬((cmd = "apply" ∧ env.sharedInitOk = false) ∨ env.sharedCmdOk cmd = false) →
        run_parallel cmd env =
          (if cmd = "apply" then [RunEv.sharedInit true] else []) ++
            [RunEv.sharedCmd cmd true] ++ depUnitEvents env)) ∧
    (cmd = "destroy" →
      run_parallel cmd env =
        depUnitEvents env ++ [RunEv.sharedDestroy (env.sharedCmdOk "destroy")]) := by
  constructor
  · rintro (hc | hc) <;> subst hc
    · constructor
      · rintro (⟨h1, _⟩ | h2)
        · exact absurd h1 (by decide)
        · intro f c hmem
          simp [run_parallel, hsh, h2] at hmem
      · intro hok
        push_neg at hok
        have h2 : env.sharedCmdOk "init" = true := by
          rcases hok with ⟨_, h⟩
          simpa using h
        simp [run_parallel, hsh, h2, sharedDestroyTail]
    · constructor
      · rintro (⟨_, h1⟩ | h2)
        · intro f c hmem
          simp [run_parallel, hsh, h1] at hmem
        · intro f c hmem
          rcases hi : env.sharedInitOk with _ | _
          · simp [run_parallel, hsh, hi] at hmem
          · simp [run_parallel, hsh, hi, h2] at hmem
      · intro hok
        push_neg at hok
        rcases hok with ⟨h1, h2⟩
        have hi : env.sharedInitOk = true := by simpa using h1 rfl
        have hcm : env.sharedCmdOk "apply" = true := by simpa using h2
        simp [run_parallel, hsh, hi, hcm, sharedDestroyTail]
  · intro hc
    subst hc
    simp [run_parallel, hsh, sharedDestroyTail]

/-- C9 witness: a destroy run on an environment with one dependent unit
destroys the shared folder last. -/
theorem run_parallel_shared_ordering_witness :
    run_parallel "destroy" envFix =
      depUnitEvents envFix ++ [RunEv.sharedDestroy (envFix.sharedCmdOk "destroy")] :=
  (run_parallel_shared_ordering envFix "destroy" rfl).2 rfl

end JsonToTerraform

namespace JsonToTerraform

lemma foldl_err_mono {α σ : Type} (f : (List VError × σ) → α → (List VError × σ))
    (P : VError → Prop)
    (hf : ∀ st x e, e ∈ (f st x).1 → e ∈ st.1 ∨ P e) :
    ∀ (l : List α) (st : List VError × σ) e, e ∈ (l.foldl f st).1 → e ∈ st.1 ∨ P e := by
  intro l
  induction l with
  | nil => exact fun st e h => Or.inl h
  | cons x xs ih =>
    intro st e h
    rcases ih (f st x) e h with h2 | h2
    · exact hf st x e h2
    · exact Or.inr h2

lemma mem_instRefCheck (ninfo : List Network) (nm : String) (st : List VError × UsedMap)
    (ref : NetRef) (e : VError) (h : e ∈ (instRefCheck ninfo nm st ref).1) :
    e ∈ st.1 ∨ e.kind = EKind.inst := by
  unfold instRefCheck at h
  split at h
  · simp only [List.mem_append, List.mem_singleton] at h
    rcases h with h | h
    · exact Or.inl h
    · subst h
      exact Or.inr rfl
  · split at h
    · simp only [List.mem_append, List.mem_singleton] at h
      rcases h with h | h
      · exact Or.inl h
      · subst h
        exact Or.inr rfl
    · simp only [List.mem_append] at h
      rcases h with (h | h) | h
      · exact Or.inl h
      · split at h <;> simp at h <;> subst h <;> exact Or.inr rfl
      · split at h <;> simp at h <;> subst h <;> exact Or.inr rfl

lemma mem_instChecks (ninfo : List Network) (avail : List String)
    (st : List VError × UsedMap) (i : Instance) (e : VError)
    (h : e ∈ (instChecks ninfo avail st i).1) : e ∈ st.1 ∨ e.kind = EKind.inst := by
  unfold instChecks at h
  simp only [List.mem_append] at h
  rcases h with (h | h) | h
  · exact foldl_err_mono _ _ (mem_instRefCheck ninfo i.name) i.networks st e h
  · rcases hci : i.cloud_init with _ | f <;> rw [hci] at h
    · simp at h
    · split at h <;> simp at h
      rcases h with ⟨_, rfl⟩
      exact Or.inr rfl
  · rcases hfi : i.floating_ip with _ | fv <;> rw [hfi] at h
    · simp at h
    · rcases fv with s | b
      · split at h
        · simp at h
          rcases h with ⟨_, rfl⟩
          exact Or.inr rfl
        · rename_i hcontra
          exact (hcontra s rfl).elim
      · simp at h

lemma mem_step4_kind (ninfo : List Network) (avail : List String) (t : Topology) (e : VError)
    (h : e ∈ (step4 ninfo avail t).1) : e.kind = EKind.inst := by
  rcases foldl_err_mono _ _ (mem_instChecks ninfo avail) t.instances ([], []) e h with h2 | h2
  · simp at h2
  · exact h2

lemma mem_step5_kind (ninfo : List Network) (e : VError) (h : e ∈ step5 ninfo) :
    e.kind = EKind.gw := by
  unfold step5 at h
  simp only [List.mem_flatMap] at h
  rcases h with ⟨n, _, h⟩
  split at h
  · simp at h
    subst h
    rfl
  · split at h <;> simp at h
    subst h
    rfl

lemma mem_routerRefCheck (ninfo : List Network) (usedIps : UsedMap) (nm : String)
    (st : List VError × UsedMap × IfaceMap) (ref : NetRef) (e : VError)
    (h : e ∈ (routerRefCheck ninfo usedIps nm st ref).1) :
    e ∈ st.1 ∨ e.kind = EKind.router := by
  unfold routerRefCheck at h
  split at h
  · simp only [List.mem_append, List.mem_singleton] at h
    rcases h with h | h
    · exact Or.inl h
    · subst h
      exact Or.inr rfl
  · split at h
    · simp only [List.mem_append, List.mem_singleton] at h
      rcases h with h | h
      · exact Or.inl h
      · subst h
        exact Or.inr rfl
    · split at h
      · simp only [List.mem_append, List.mem_singleton] at h
        rcases h with h | h
        · exact Or.inl h
        · subst h
          exact Or.inr rfl
      · simp only [List.mem_append] at h
        rcases h with (h | h) | h
        · exact Or.inl h
        · split at h <;> simp at h <;> subst h <;> exact Or.inr rfl
        · split at h <;> simp at h <;> subst h <;> exact Or.inr rfl

lemma mem_step6_kind (ninfo : List Network) (usedIps : UsedMap) (routers : List Router)
    (e : VError) (h : e ∈ (step6 ninfo usedIps routers).1) : e.kind = EKind.router := by
  have hf : ∀ (st : List VError × UsedMap × IfaceMap) (r : Router) e,
      e ∈ (r.networks.foldl (routerRefCheck ninfo usedIps r.name) st).1 →
        e ∈ st.1 ∨ e.kind = EKind.router := by
    intro st r e2 h2
    exact foldl_err_mono _ _ (mem_routerRefCheck ninfo usedIps r.name) r.networks st e2 h2
  unfold step6 at h
  rcases foldl_err_mono
      (fun st r => r.networks.foldl (routerRefCheck ninfo usedIps r.name) st)
      (fun e => e.kind = EKind.router) hf routers ([], [], []) e h with h2 | h2
  · simp at h2
  · exact h2

lemma mem_step65_kind (ninfo : List Network) (iface : IfaceMap) (e : VError)
    (h : e ∈ step65 ninfo iface) : e.kind = EKind.gwMatch := by
  unfold step65 at h
  simp only [List.mem_flatMap] at h
  rcases h with ⟨n, _, h⟩
  split at h
  · split at h <;> simp at h
    subst h
    rfl
  · simp at h

lemma mem_step7_kind (ninfo : List Network) (routers : List Router) (e : VError)
    (h : e ∈ step7 ninfo routers) : e.kind = EKind.route := by
  unfold step7 routeChecks at h
  simp only [List.mem_flatMap] at h
  rcases h with ⟨r, _, rt, _, h⟩
  split at h
  · simp at h
    subst h
    rfl
  · split at h
    · simp at h
      subst h
      rfl
    · split at h <;> simp at h
      subst h
      rfl

lemma mem_schemaBlock_kind (t : Topology) (e : VError) (h : e ∈ schemaBlock t) :
    e.kind = EKind.schema := by
  unfold schemaBlock at h
  split at h
  · simp at h
  · simp at h
    subst h
    rfl

end JsonToTerraform

namespace JsonToTerraform

lemma pairwise_key_unique {α : Type} (key : α → String) (l : List α)
    (h : l.Pairwise (fun a b => key a ≠ key b)) :
    ∀ a ∈ l, ∀ b ∈ l, key a = key b → a = b := by
  induction l with
  | nil => simp
  | cons x xs ih =>
    rcases List.pairwise_cons.mp h with ⟨hx, hxs⟩
    intro a ha b hb heq
    rcases List.mem_cons.mp ha with rfl | ha2 <;> rcases List.mem_cons.mp hb with rfl | hb2
    · rfl
    · exact absurd heq (hx b hb2)
    · exact absurd heq.symm (hx a ha2)
    · exact ih hxs a ha2 b hb2 heq

lemma foldl_upsertNet_eq (l : List Network) :
    ∀ acc : List Network,
      (∀ n ∈ l, ∀ m ∈ acc, m.name ≠ n.name) →
      l.Pairwise (fun a b => a.name ≠ b.name) →
      l.foldl upsertNet acc = acc ++ l := by
  induction l with
  | nil => simp
  | cons n ns ih =>
    intro acc hdisj hnodup
    rcases List.pairwise_cons.mp hnodup with ⟨hn, hns⟩
    have hno : acc.any (fun m => decide (m.name = n.name)) = false := by
      rw [List.any_eq_false]
      intro m hm
      simpa using hdisj n (List.mem_cons_self n ns) m hm
    have hstep : upsertNet acc n = acc ++ [n] := by
      unfold upsertNet
      rw [hno]
      simp
    rw [List.foldl_cons, hstep, ih (acc ++ [n]) ?_ hns, List.append_assoc]
    · simp
    · intro x hx m hm
      rcases List.mem_append.mp hm with hm2 | hm2
      · exact hdisj x (List.mem_cons_of_mem n hx) m hm2
      · rw [List.mem_singleton.mp hm2]
        exact hn x hx

lemma netinfo_eq_self (t : Topology)
    (h : t.networks.Pairwise (fun a b => a.name ≠ b.name)) : netinfo t = t.networks := by
  unfold netinfo
  rw [foldl_upsertNet_eq t.networks [] (by simp) h]
  simp

lemma findNet_mem_iff (l : List Network) (hnd : l.Pairwise (fun a b => a.name ≠ b.name))
    (s : String) (net : Network) :
    findNet l s = some net ↔ net ∈ l ∧ net.name = s := by
  constructor
  · intro hf
    refine ⟨List.mem_of_find?_eq_some hf, ?_⟩
    have h2 := List.find?_some hf
    simpa using h2
  · rintro ⟨hm, rfl⟩
    rcases hf : findNet l net.name with _ | m
    · exfalso
      have := List.find?_eq_none.mp hf net hm
      simp at this
    · have hm2 := List.mem_of_find?_eq_some hf
      have h2 := List.find?_some hf
      simp only [decide_eq_true_eq] at h2
      rw [pairwise_key_unique Network.name l hnd m hm2 net hm h2]

/-- C1: in a topology with distinct network names, for every network on
which a router interface was recorded (it passed the existence, format
and range checks of step 6), the gateway-mismatch error for that network
is in the returned violation list exactly when `gateway_ip` differs from
the recorded router interface IP: equality passes, any difference is a
hard error. -/
theorem validate_gateway_router_alignment (avail : List String) (t : Topology)
    (net : Network) (rip : String)
    (hnodup : t.networks.Pairwise (fun a b => a.name ≠ b.name))
    (hmem : net ∈ t.networks)
    (hiface : lookupIface (router_interface_ips avail t) net.name = some rip) :
    VError.gatewayMismatch net.name net.gateway_ip rip ∈ (validate_topology avail t).2 ↔
      net.gateway_ip ≠ rip := by
  have hni : netinfo t = t.networks := netinfo_eq_self t hnodup
  have hkind : (VError.gatewayMismatch net.name net.gateway_ip rip).kind = EKind.gwMatch := rfl
  constructor
  · intro h
    simp only [validate_topology, logicErrs, List.mem_append] at h
    rcases h with h | ((((h | h) | h) | h) | h)
    · exact absurd (mem_schemaBlock_kind t _ h) (by rw [hkind]; decide)
    · exact absurd (mem_step4_kind _ _ _ _ h) (by rw [hkind]; decide)
    · exact absurd (mem_step5_kind _ _ h) (by rw [hkind]; decide)
    · exact absurd (mem_step6_kind _ _ _ _ h) (by rw [hkind]; decide)
    · -- the real block
      unfold step65 at h
      simp only [List.mem_flatMap] at h
      rcases h with ⟨n2, hn2, h⟩
      rcases hl : lookupIface
          (step6 (netinfo t) (step4 (netinfo t) avail t).2 t.routers).2.2 n2.name
        with _ | rip2 <;> rw [hl] at h
      · simp at h
      · simp at h
        rcases h with ⟨hgw, hname, hgweq, hripeq⟩
        rw [hni] at hn2
        have he : n2 = net :=
          pairwise_key_unique Network.name t.networks hnodup n2 hn2 net hmem hname.symm
        intro hh
        apply hgw
        rw [← he] at hh
        rw [hripeq] at hh
        exact hh
    · exact absurd (mem_step7_kind _ _ _ h) (by rw [hkind]; decide)
  · intro hne
    simp only [validate_topology, logicErrs, List.mem_append]
    refine Or.inr (Or.inl (Or.inr ?_))
    unfold step65
    simp only [List.mem_flatMap]
    refine ⟨net, by rw [hni]; exact hmem, ?_⟩
    have hl : lookupIface
        (step6 (netinfo t) (step4 (netinfo t) avail t).2 t.routers).2.2 net.name = some rip :=
      hiface
    rw [hl]
    simp [hne]

end JsonToTerraform

namespace JsonToTerraform

/-- C1 witness: in the fixture the gateway equals the router interface
IP, so no mismatch error is emitted. -/
theorem validate_gateway_router_alignment_witness :
    VError.gatewayMismatch "net1" "10.0.0.1" "10.0.0.1" ∈ (validate_topology [] topoFix).2 ↔
      ("10.0.0.1" : String) ≠ "10.0.0.1" :=
  validate_gateway_router_alignment [] topoFix netFix "10.0.0.1"
    (by decide) (by decide) (by decide)

lemma nexthopReachable_iff (t : Topology)
    (hnodup : t.networks.Pairwise (fun a b => a.name ≠ b.name)) (r : Router) (nh : String) :
    nexthopReachable (netinfo t) r nh = true ↔
      ∃ net ∈ t.networks, (∃ ref ∈ r.networks, ref.name = net.name) ∧
        check_ip_in_cidr nh net.cidr = true := by
  rw [netinfo_eq_self t hnodup]
  unfold nexthopReachable
  rw [List.any_eq_true]
  constructor
  · rintro ⟨ref, href, hm⟩
    rcases hf : findNet t.networks ref.name with _ | net <;> rw [hf] at hm
    · simp at hm
    · rcases (findNet_mem_iff t.networks hnodup ref.name net).mp hf with ⟨hnet, hname⟩
      exact ⟨net, hnet, ⟨ref, href, hname.symm⟩, hm⟩
  · rintro ⟨net, hnet, ⟨ref, href, hname⟩, hc⟩
    refine ⟨ref, href, ?_⟩
    rw [(findNet_mem_iff t.networks hnodup ref.name net).mpr ⟨hnet, hname.symm⟩]
    exact hc

/-- C2: in a topology with distinct network and router names, for every
route with well-formed destination CIDR and nexthop IP, the reachability
violation is emitted iff the nexthop is not inside the CIDR of any
existing network the router is attached to; the route's destination plays
no role. -/
theorem validate_route_nexthop_reachability (avail : List String) (t : Topology)
    (r : Router) (rt : Route)
    (hnodupN : t.networks.Pairwise (fun a b => a.name ≠ b.name))
    (hnodupR : t.routers.Pairwise (fun a b => a.name ≠ b.name))
    (hr : r ∈ t.routers) (hrt : rt ∈ r.routes)
    (hdest : validate_cidr rt.destination = true) (hnh : validate_ip rt.nexthop = true) :
    VError.routeNexthopUnreachable r.name rt.nexthop ∈ (validate_topology avail t).2 ↔
      ¬ ∃ net ∈ t.networks, (∃ ref ∈ r.networks, ref.name = net.name) ∧
          check_ip_in_cidr rt.nexthop net.cidr = true := by
  have hkind : (VError.routeNexthopUnreachable r.name rt.nexthop).kind = EKind.route := rfl
  constructor
  · intro h
    simp only [validate_topology, logicErrs, List.mem_append] at h
    rcases h with h | ((((h | h) | h) | h) | h)
    · exact absurd (mem_schemaBlock_kind t _ h) (by rw [hkind]; decide)
    · exact absurd (mem_step4_kind _ _ _ _ h) (by rw [hkind]; decide)
    · exact absurd (mem_step5_kind _ _ h) (by rw [hkind]; decide)
    · exact absurd (mem_step6_kind _ _ _ _ h) (by rw [hkind]; decide)
    · exact absurd (mem_step65_kind _ _ _ h) (by rw [hkind]; decide)
    · unfold step7 routeChecks at h
      simp only [List.mem_flatMap] at h
      rcases h with ⟨r2, hr2, rt2, hrt2, h⟩
      split at h
      · simp at h
      · split at h
        · simp at h
        · split at h
          · simp at h
          · rename_i hreach
            simp only [List.mem_singleton, VError.routeNexthopUnreachable.injEq] at h
            rcases h with ⟨hname, hnheq⟩
            have hre : r2 = r :=
              pairwise_key_unique Router.name t.routers hnodupR r2 hr2 r hr hname.symm
            subst hre
            intro hex
            apply hreach
            rw [← hnheq]
            exact (nexthopReachable_iff t hnodupN r2 rt.nexthop).mpr hex
  · intro hnr
    simp only [validate_topology, logicErrs, List.mem_append]
    refine Or.inr (Or.inr ?_)
    unfold step7 routeChecks
    simp only [List.mem_flatMap]
    refine ⟨r, hr, rt, hrt, ?_⟩
    have hrf : nexthopReachable (netinfo t) r rt.nexthop = false := by
      cases hb : nexthopReachable (netinfo t) r rt.nexthop
      · rfl
      · exact absurd ((nexthopReachable_iff t hnodupN r rt.nexthop).mp hb) hnr
    simp [hdest, hnh, hrf]

/-- C2 witness: nexthop `10.0.0.254` is inside the attached network
`10.0.0.0/24`, so no reachability violation is emitted even though the
destination `192.168.5.0/24` is no attached network. -/
theorem validate_route_nexthop_reachability_witness :
    VError.routeNexthopUnreachable "r1" "10.0.0.254" ∈ (validate_topology [] topoFix).2 ↔
      ¬ ∃ net ∈ topoFix.networks, (∃ ref ∈ routerFix.networks, ref.name = net.name) ∧
          check_ip_in_cidr "10.0.0.254" net.cidr = true :=
  validate_route_nexthop_reachability [] topoFix routerFix
    { destination := "192.168.5.0/24", nexthop := "10.0.0.254" }
    (by decide) (by decide) (by decide) (by decide) (by decide) (by decide)

lemma kind_ne_schema_isSchemaErr (e : VError) (h : e.kind ≠ EKind.schema) :
    e.isSchemaErr = false := by
  cases e <;> first
    | rfl
    | exact absurd rfl h

lemma mem_logicErrs_not_schema (avail : List String) (t : Topology) (e : VError)
    (h : e ∈ logicErrs avail t) : e.isSchemaErr = false := by
  apply kind_ne_schema_isSchemaErr
  unfold logicErrs at h
  simp only [List.mem_append] at h
  rcases h with (((h | h) | h) | h) | h
  · rw [mem_step4_kind _ _ _ _ h]
    decide
  · rw [mem_step5_kind _ _ h]
    decide
  · rw [mem_step6_kind _ _ _ _ h]
    decide
  · rw [mem_step65_kind _ _ _ h]
    decide
  · rw [mem_step7_kind _ _ _ h]
    decide

/-- C4 amended: the schema stage contributes at most one violation to the
returned list (`jsonschema.validate` raises only the first error), it
contributes none exactly when the document is schema-conformant, and the
logic checks still run after a schema error (the error list is the schema
block followed by the logic errors).  The validator is a pure function of
the document and the cloud-init file list. -/
theorem schema_stage_single_error (avail : List String) (t : Topology) :
    ((validate_topology avail t).2.filter VError.isSchemaErr).length ≤ 1 ∧
    ((validate_topology avail t).2.filter VError.isSchemaErr = [] ↔ schemaViolations t = []) ∧
    (validate_topology avail t).2 = schemaBlock t ++ logicErrs avail t := by
  have hlog : (logicErrs avail t).filter VError.isSchemaErr = [] := by
    rw [List.filter_eq_nil_iff]
    intro e he
    rw [mem_logicErrs_not_schema avail t e he]
    decide
  have hfl : (validate_topology avail t).2.filter VError.isSchemaErr =
      (schemaBlock t).filter VError.isSchemaErr := by
    show ((schemaBlock t ++ logicErrs avail t).filter VError.isSchemaErr) = _
    rw [List.filter_append, hlog, List.append_nil]
  refine ⟨?_, ?_, rfl⟩
  · rw [hfl]
    unfold schemaBlock
    split
    · simp
    · simp [VError.isSchemaErr]
  · rw [hfl]
    unfold schemaBlock
    split
    · rename_i hv
      simp [hv]
    · rename_i v tail hv
      simp [hv, VError.isSchemaErr]

/-- C4 counterexample: a document with two schema violations (empty
instance name and `cpu = 0`) yields exactly one schema error in the
returned list — the violations are not all collected. -/
theorem schema_errors_dropped_cex :
    (schemaViolations topoTwoViol).length = 2 ∧
    ((validate_topology [] topoTwoViol).2.filter VError.isSchemaErr).length = 1 := by decide

end JsonToTerraform

namespace JsonToTerraform

lemma find?_congr_mem {α : Type} (l : List α) (p q : α → Bool)
    (h : ∀ x ∈ l, p x = q x) : l.find? p = l.find? q := by
  induction l with
  | nil => rfl
  | cons x xs ih =>
    have hx := h x (List.mem_cons_self x xs)
    rw [List.find?_cons, List.find?_cons, hx]
    cases q x
    · exact ih (fun y hy => h y (List.mem_cons_of_mem x hy))
    · rfl

/-- C6 counterexample: with parent `10.0.0.0/16` and one used subnet
`10.0.254.0/23`, the code keys only the `/24` containing the subnet's
network address (`10.0.254.0/24`) and returns `10.0.255.0/24`
(numeric base 167837440), which overlaps the used `/23`; the claim's
non-overlap selection would return `10.0.253.0/24` (167836928). -/
theorem select_public_subnet_cex :
    select_public_subnet 167772160 16 netsWide = 167837440 ∧
    select_public_subnet_claim 167772160 16 netsWide = 167836928 ∧
    (parsedSubnets netsWide).any
      (fun u => cidrOverlap { base := 167837440, plen := 24 } u) = true := by decide

lemma mem_subnets24 (base plen s : Nat) (h : s ∈ subnets24 base plen) :
    ∃ i, i < 2 ^ (24 - plen) ∧ s = base + i * 256 := by
  unfold subnets24 at h
  simp only [List.mem_map, List.mem_range] at h
  rcases h with ⟨i, hi, rfl⟩
  exact ⟨i, hi, rfl⟩

lemma any_congr_mem {α : Type} (l : List α) (p q : α → Bool)
    (h : ∀ x ∈ l, p x = q x) : l.any p = l.any q := by
  induction l with
  | nil => rfl
  | cons x xs ih =>
    simp only [List.any_cons, h x (List.mem_cons_self x xs),
      ih (fun y hy => h y (List.mem_cons_of_mem x hy))]

lemma any_map_comp {α β : Type} (l : List α) (f : α → β) (p : β → Bool) :
    (l.map f).any p = l.any (fun x => p (f x)) := by
  induction l with
  | nil => rfl
  | cons x xs ih => simp [List.any_cons, ih]

lemma key_eq_iff_overlap (s : Nat) (c : Cidr) (hs : s % 256 = 0)
    (hp : 24 ≤ c.plen) (hple : c.plen ≤ 32) (hmask : c.base % cidrSize c = 0) :
    (c.base - c.base % 256 = s) ↔
      (s < c.base + cidrSize c ∧ c.base < s + 256) := by
  have hm1 : 1 ≤ cidrSize c := Nat.one_le_two_pow
  have hdvd256 : cidrSize c ∣ 256 := by
    have h8 : 32 - c.plen ≤ 8 := by omega
    calc cidrSize c = 2 ^ (32 - c.plen) := rfl
      _ ∣ 2 ^ 8 := Nat.pow_dvd_pow 2 h8
  have hszle : cidrSize c ≤ 256 := Nat.le_of_dvd (by norm_num) hdvd256
  have hdvdbase : cidrSize c ∣ c.base := Nat.dvd_of_mod_eq_zero hmask
  have hdvdmod : cidrSize c ∣ c.base % 256 := (Nat.dvd_mod_iff hdvd256).mpr hdvdbase
  have hmodlt : c.base % 256 < 256 := Nat.mod_lt _ (by norm_num)
  have hmod_le : c.base % 256 ≤ 256 - cidrSize c := by
    rcases Nat.eq_zero_or_pos (c.base % 256) with h0 | h0
    · omega
    · have hd : cidrSize c ∣ 256 - c.base % 256 := Nat.dvd_sub' hdvd256 hdvdmod
      have := Nat.le_of_dvd (by omega) hd
      omega
  have hk : (c.base - c.base % 256) % 256 = 0 := by
    have h1 : c.base - c.base % 256 = 256 * (c.base / 256) := by
      have := Nat.div_add_mod c.base 256
      omega
    rw [h1]
    exact Nat.mul_mod_right _ _
  omega

lemma parsedSubnets_usedKeys (nets : List Network) :
    usedNet24Keys nets = (parsedSubnets nets).map (fun c => c.base - c.base % 256) := by
  unfold usedNet24Keys parsedSubnets
  rw [List.map_filterMap]

/-- C6 amended: the selection enumerates the `/24` subnets of the parent
from the highest address downward and skips exactly those whose network
address equals the `/24`-aligned network address of some used subnet;
when every used subnet is a `/24` or smaller (prefix at least 24) this
coincides with the claim's overlap-free selection, proved here as
equality with the claim's reading. -/
theorem select_public_subnet_small_used (base plen : Nat) (nets : List Network)
    (hplen : plen ≤ 24) (hbase : base % 2 ^ (32 - plen) = 0)
    (hsmall : ∀ n ∈ nets, ∀ c, parseCIDRNet n.cidr = some c → 24 ≤ c.plen) :
    select_public_subnet base plen nets = select_public_subnet_claim base plen nets := by
  have hfind : (subnets24 base plen).reverse.find?
      (fun s => !(usedNet24Keys nets).any (fun u => decide (u = s))) =
    (subnets24 base plen).reverse.find?
      (fun s => !(parsedSubnets nets).any
        (fun u => cidrOverlap { base := s, plen := 24 } u)) := by
    apply find?_congr_mem
    intro s hsmem
    rw [List.mem_reverse] at hsmem
    rcases mem_subnets24 base plen s hsmem with ⟨i, hi, rfl⟩
    have h8 : (8 : Nat) ≤ 32 - plen := by omega
    have h2 : (2 : Nat) ^ 8 ∣ base :=
      Nat.dvd_trans (Nat.pow_dvd_pow 2 h8) (Nat.dvd_of_mod_eq_zero hbase)
    have h256 : (256 : Nat) ∣ base := by
      norm_num at h2
      exact h2
    have hs0 : (base + i * 256) % 256 = 0 := by
      rcases h256 with ⟨k, hk⟩
      subst hk
      omega
    rw [parsedSubnets_usedKeys, any_map_comp]
    congr 1
    apply any_congr_mem
    intro c hc
    have hcsrc : ∃ n ∈ nets, parseCIDRNet n.cidr = some c := by
      unfold parsedSubnets at hc
      simpa using List.mem_filterMap.mp hc
    rcases hcsrc with ⟨n, hn, hpn⟩
    have hp := hsmall n hn c hpn
    have hple := parseCIDRNet_plen_le n.cidr c hpn
    have hmask := parseCIDRNet_masked n.cidr c hpn
    show (fun u => decide (u = base + i * 256)) (c.base - c.base % 256) =
      cidrOverlap { base := base + i * 256, plen := 24 } c
    have h24 : cidrSize { base := base + i * 256, plen := 24 } = 256 := by
      norm_num [cidrSize]
    unfold cidrOverlap
    rw [h24]
    simp only [decide_eq_decide]
    exact key_eq_iff_overlap (base + i * 256) c hs0 hp hple hmask
  unfold select_public_subnet select_public_subnet_claim
  rw [hfind]

/-- C6 witness: a used `/24` inside a `/16` parent, where both selections
agree. -/
theorem select_public_subnet_small_used_witness :
    select_public_subnet 167772160 16
        [{ name := "n", cidr := "10.0.5.0/24", gateway_ip := "10.0.5.1" }] =
      select_public_subnet_claim 167772160 16
        [{ name := "n", cidr := "10.0.5.0/24", gateway_ip := "10.0.5.1" }] :=
  select_public_subnet_small_used 167772160 16
    [{ name := "n", cidr := "10.0.5.0/24", gateway_ip := "10.0.5.1" }]
    (by norm_num) (by decide) (by decide)

end JsonToTerraform

namespace JsonToTerraform

/-- C8 counterexample: `collect_all_networks_and_routers` uses
`net.copy()`, a shallow copy: cloning the fixture network whose `pool`
list is the mutable object with id 3 yields an output network from which
id 3 is still reachable, so the clone shares mutable structure with the
input, refuting the deep-copy claim for this function. -/
theorem collect_shallow_sharing_cex :
    3 ∈ ((collect_networks_routers topoHeapFix "openstack" 100 ["a"]).1).flatMap ObjD.mutIds ∧
    3 ∈ topoHeapFix.mutIds := by decide

lemma copyDicts_spec (ds : List DictS) : ∀ fresh : Nat,
    fresh ≤ (copyDicts fresh ds).2 ∧ ∀ d ∈ (copyDicts fresh ds).1, fresh ≤ d.id := by
  induction ds with
  | nil => simp [copyDicts]
  | cons d ds ih =>
    intro fresh
    rcases ih (fresh + 1) with ⟨h1, h2⟩
    constructor
    · show fresh ≤ (copyDicts (fresh + 1) ds).2
      omega
    · intro x hx
      rcases List.mem_cons.mp hx with rfl | hx2
      · simp
      · have := h2 x hx2
        omega

lemma fval_deepCopy_spec (v : FVal) (fresh : Nat) :
    fresh ≤ (FVal.deepCopy fresh v).2 ∧
    ∀ i ∈ (FVal.deepCopy fresh v).1.mutIds, fresh ≤ i := by
  cases v with
  | prim s => simp [FVal.deepCopy, FVal.mutIds]
  | arrPrim a xs => simp [FVal.deepCopy, FVal.mutIds]
  | arrDict a xs =>
    rcases copyDicts_spec xs fresh with ⟨h1, h2⟩
    constructor
    · show fresh ≤ (copyDicts fresh xs).2 + 1
      omega
    · intro i hi
      simp only [FVal.deepCopy, FVal.mutIds, List.mem_cons, List.mem_map] at hi
      rcases hi with rfl | ⟨d, hd, rfl⟩
      · omega
      · exact h2 d hd

lemma copyFields_spec (fs : List (String × FVal)) : ∀ fresh : Nat,
    fresh ≤ (copyFields fresh fs).2 ∧
    ∀ i ∈ (copyFields fresh fs).1.flatMap (fun f => f.2.mutIds), fresh ≤ i := by
  induction fs with
  | nil => simp [copyFields]
  | cons f fs ih =>
    intro fresh
    rcases fval_deepCopy_spec f.2 fresh with ⟨hv1, hv2⟩
    rcases ih (FVal.deepCopy fresh f.2).2 with ⟨h1, h2⟩
    constructor
    · show fresh ≤ (copyFields (FVal.deepCopy fresh f.2).2 fs).2
      omega
    · intro i hi
      simp only [copyFields, List.flatMap_cons, List.mem_append] at hi
      rcases hi with hi | hi
      · exact hv2 i hi
      · have := h2 i hi
        omega

lemma objD_deepCopy_spec (o : ObjD) (fresh : Nat) :
    fresh ≤ (ObjD.deepCopy fresh o).2 ∧
    ∀ i ∈ (ObjD.deepCopy fresh o).1.mutIds, fresh ≤ i := by
  rcases copyFields_spec o.fields fresh with ⟨h1, h2⟩
  constructor
  · show fresh ≤ (copyFields fresh o.fields).2 + 1
    omega
  · intro i hi
    simp only [ObjD.deepCopy, ObjD.mutIds, List.mem_cons] at hi
    rcases hi with rfl | hi
    · omega
    · exact h2 i hi

lemma copyObjs_spec (os : List ObjD) : ∀ fresh : Nat,
    fresh ≤ (copyObjs fresh os).2 ∧
    ∀ i ∈ (copyObjs fresh os).1.flatMap ObjD.mutIds, fresh ≤ i := by
  induction os with
  | nil => simp [copyObjs]
  | cons o os ih =>
    intro fresh
    rcases objD_deepCopy_spec o fresh with ⟨hv1, hv2⟩
    rcases ih (ObjD.deepCopy fresh o).2 with ⟨h1, h2⟩
    constructor
    · show fresh ≤ (copyObjs (ObjD.deepCopy fresh o).2 os).2
      omega
    · intro i hi
      simp only [copyObjs, List.flatMap_cons, List.mem_append] at hi
      rcases hi with hi | hi
      · exact hv2 i hi
      · have := h2 i hi
        omega

lemma topoV_deepCopy_spec (t : TopoV) (fresh : Nat) :
    ∀ i ∈ (TopoV.deepCopy fresh t).1.mutIds, fresh ≤ i := by
  intro i hi
  rcases copyObjs_spec t.instances fresh with ⟨ha1, ha2⟩
  rcases copyObjs_spec t.networks (copyObjs fresh t.instances).2 with ⟨hb1, hb2⟩
  rcases copyObjs_spec t.routers (copyObjs (copyObjs fresh t.instances).2 t.networks).2
    with ⟨hc1, hc2⟩
  simp only [TopoV.deepCopy, TopoV.mutIds, List.mem_append, List.mem_cons,
    List.mem_singleton] at hi
  rcases hi with (((rfl | rfl | rfl | rfl | hf) | hi) | hi) | hi
  · omega
  · omega
  · omega
  · omega
  · simp at hf
  · have := ha2 i hi
    omega
  · have := hb2 i hi
    omega
  · have := hc2 i hi
    omega

end JsonToTerraform

namespace JsonToTerraform

lemma upsertFld_prim_ids (fs : List (String × FVal)) (k s : String) (i : Nat)
    (hi : i ∈ (upsertFld fs k (FVal.prim s)).flatMap (fun f => f.2.mutIds)) :
    i ∈ fs.flatMap (fun f => f.2.mutIds) := by
  unfold upsertFld at hi
  split at hi
  · simp only [List.mem_flatMap, List.mem_map] at hi ⊢
    rcases hi with ⟨f, ⟨e, he, rfl⟩, hif⟩
    by_cases hek : e.1 = k
    · simp [hek, FVal.mutIds] at hif
    · simp only [hek, if_false] at hif
      exact ⟨e, he, hif⟩
  · simp only [List.flatMap_append, List.mem_append] at hi
    rcases hi with hi | hi
    · exact hi
    · simp [FVal.mutIds] at hi

lemma renameName_ids (sfx : String) (o : ObjD) (i : Nat)
    (hi : i ∈ (renameName sfx o).mutIds) : i ∈ o.mutIds := by
  simp only [renameName, ObjD.mutIds, List.mem_cons] at hi ⊢
  rcases hi with rfl | hi
  · exact Or.inl rfl
  · exact Or.inr (upsertFld_prim_ids o.fields "name" _ i hi)

lemma renameRefsVal_ids (sfx : String) (v : FVal) :
    (renameRefsVal sfx v).mutIds = v.mutIds := by
  cases v with
  | prim s => rfl
  | arrPrim a xs => rfl
  | arrDict a xs =>
    simp [renameRefsVal, FVal.mutIds, List.map_map, Function.comp_def]

lemma renameWithRefs_ids (sfx : String) (o : ObjD) (i : Nat)
    (hi : i ∈ (renameWithRefs sfx o).mutIds) : i ∈ o.mutIds := by
  apply renameName_ids sfx o
  simp only [renameWithRefs, ObjD.mutIds, List.mem_cons] at hi ⊢
  rcases hi with rfl | hi
  · exact Or.inl rfl
  · refine Or.inr ?_
    simp only [List.mem_flatMap, List.mem_map] at hi ⊢
    rcases hi with ⟨f, ⟨e, he, rfl⟩, hif⟩
    by_cases hek : e.1 = "networks"
    · simp only [hek, if_true] at hif
      rw [renameRefsVal_ids] at hif
      exact ⟨e, he, hif⟩
    · simp only [hek, if_false] at hif
      exact ⟨e, he, hif⟩

lemma modify_heap_fresh (t : TopoV) (sfx : String) (fresh : Nat) (i : Nat)
    (hi : i ∈ (modify_topology_heap t sfx fresh).1.mutIds) : fresh ≤ i := by
  apply topoV_deepCopy_spec t fresh
  simp only [modify_topology_heap, TopoV.mutIds, List.mem_append, List.mem_cons,
    List.mem_singleton, List.mem_flatMap, List.mem_map] at hi ⊢
  rcases hi with (((rfl | rfl | rfl | rfl | hf) | hi) | hi) | hi
  · exact Or.inl (Or.inl (Or.inl (Or.inl rfl)))
  · exact Or.inl (Or.inl (Or.inl (Or.inr (Or.inl rfl))))
  · exact Or.inl (Or.inl (Or.inl (Or.inr (Or.inr (Or.inl rfl)))))
  · exact Or.inl (Or.inl (Or.inl (Or.inr (Or.inr (Or.inr (Or.inl rfl))))))
  · simp at hf
  · rcases hi with ⟨o, ⟨o2, ho2, rfl⟩, hio⟩
    exact Or.inl (Or.inl (Or.inr ⟨o2, ho2, renameWithRefs_ids sfx o2 i hio⟩))
  · rcases hi with ⟨o, ⟨o2, ho2, rfl⟩, hio⟩
    exact Or.inl (Or.inr ⟨o2, ho2, renameName_ids sfx o2 i hio⟩)
  · rcases hi with ⟨o, ⟨o2, ho2, rfl⟩, hio⟩
    exact Or.inr ⟨o2, ho2, renameWithRefs_ids sfx o2 i hio⟩

end JsonToTerraform

namespace JsonToTerraform

lemma cloneRefDicts_counter (sfx : String) (ds : List DictS) :
    ∀ fresh : Nat, fresh ≤ (cloneRefDicts sfx fresh ds).2 := by
  induction ds with
  | nil => simp [cloneRefDicts]
  | cons d ds ih =>
    intro fresh
    have := ih (fresh + 1)
    show fresh ≤ (cloneRefDicts sfx (fresh + 1) ds).2
    omega

lemma cloneNets_spec (sfx : String) (ns : List ObjD) : ∀ fresh : Nat,
    fresh ≤ (cloneNetsForSuffix sfx fresh ns).2 ∧
    ∀ o ∈ (cloneNetsForSuffix sfx fresh ns).1,
      fresh ≤ o.id ∧ ∀ i ∈ o.mutIds, i = o.id ∨ ∃ n ∈ ns, i ∈ n.mutIds := by
  induction ns with
  | nil => simp [cloneNetsForSuffix]
  | cons n ns ih =>
    intro fresh
    rcases ih (fresh + 1) with ⟨h1, h2⟩
    constructor
    · show fresh ≤ (cloneNetsForSuffix sfx (fresh + 1) ns).2
      omega
    · intro o ho
      rcases List.mem_cons.mp ho with rfl | ho2
      · refine ⟨le_refl _, ?_⟩
        intro i hi
        simp only [cloneNetShallow, ObjD.mutIds, List.mem_cons] at hi
        rcases hi with rfl | hi
        · exact Or.inl rfl
        · refine Or.inr ⟨n, List.mem_cons_self n ns, ?_⟩
          simp only [ObjD.mutIds, List.mem_cons]
          exact Or.inr (upsertFld_prim_ids n.fields "name" _ i hi)
      · rcases h2 o ho2 with ⟨ho1, ho3⟩
        refine ⟨by omega, ?_⟩
        intro i hi
        rcases ho3 i hi with hi2 | ⟨n2, hn2, hi2⟩
        · exact Or.inl hi2
        · exact Or.inr ⟨n2, List.mem_cons_of_mem n hn2, hi2⟩

lemma cloneRouters_spec (provider sfx : String) (rs : List ObjD) : ∀ fresh : Nat,
    fresh ≤ (cloneRoutersForSuffix provider sfx fresh rs).2 ∧
    ∀ o ∈ (cloneRoutersForSuffix provider sfx fresh rs).1, fresh ≤ o.id := by
  induction rs with
  | nil => simp [cloneRoutersForSuffix]
  | cons r rs ih =>
    intro fresh
    have hc2 : fresh ≤ (cloneRouterShallow provider sfx fresh r).2 ∧
        fresh ≤ (cloneRouterShallow provider sfx fresh r).1.id := by
      unfold cloneRouterShallow
      split
      · rename_i aid xs heq
        have hx := cloneRefDicts_counter sfx xs fresh
        constructor
        · split <;> simp <;> omega
        · split <;> simp <;> omega
      · have hx := cloneRefDicts_counter sfx [] fresh
        constructor
        · split <;> simp <;> omega
        · split <;> simp <;> omega
    rcases ih (cloneRouterShallow provider sfx fresh r).2 with ⟨h1, h2⟩
    constructor
    · show fresh ≤ (cloneRoutersForSuffix provider sfx
        (cloneRouterShallow provider sfx fresh r).2 rs).2
      omega
    · intro o ho
      rcases List.mem_cons.mp ho with rfl | ho2
      · exact hc2.2
      · have := h2 o ho2
        omega

lemma collect_spec (t : TopoV) (provider : String) (suffixes : List String) :
    ∀ fresh : Nat,
      fresh ≤ (collect_networks_routers t provider fresh suffixes).2.2 ∧
      (∀ o ∈ (collect_networks_routers t provider fresh suffixes).1,
        fresh ≤ o.id ∧ ∀ i ∈ o.mutIds, i = o.id ∨ ∃ n ∈ t.networks, i ∈ n.mutIds) ∧
      (∀ o ∈ (collect_networks_routers t provider fresh suffixes).2.1, fresh ≤ o.id) := by
  induction suffixes with
  | nil => simp [collect_networks_routers]
  | cons sfx rest ih =>
    intro fresh
    rcases cloneNets_spec sfx t.networks fresh with ⟨hn1, hn2⟩
    rcases cloneRouters_spec provider sfx t.routers
      (cloneNetsForSuffix sfx fresh t.networks).2 with ⟨hr1, hr2⟩
    rcases ih (cloneRoutersForSuffix provider sfx
      (cloneNetsForSuffix sfx fresh t.networks).2 t.routers).2 with ⟨ht1, ht2, ht3⟩
    refine ⟨?_, ?_, ?_⟩
    · show fresh ≤ (collect_networks_routers t provider _ rest).2.2
      omega
    · intro o ho
      rcases List.mem_append.mp ho with ho2 | ho2
      · exact hn2 o ho2
      · rcases ht2 o ho2 with ⟨ho3, ho4⟩
        exact ⟨by omega, ho4⟩
    · intro o ho
      rcases List.mem_append.mp ho with ho2 | ho2
      · have := hr2 o ho2
        omega
      · have := ht3 o ho2
        omega

/-- C8 amended: `modify_topology` (JSON round trip) returns a deep,
independent copy — no mutable object of the clone is an object of the
input; `collect_all_networks_and_routers` allocates a fresh top-level
dict for every cloned network and router (so it never mutates the input),
but each cloned network's nested mutable values are the input's own
objects (shallow copy), as the counterexample exhibits for a pool list.
Neither function mutates its input (both are modelled as pure functions,
mirroring that the code writes only to the copies). -/
theorem clone_copy_semantics (t : TopoV) (sfx provider : String) (fresh : Nat)
    (hfresh : ∀ i ∈ t.mutIds, i < fresh) :
    (∀ i ∈ (modify_topology_heap t sfx fresh).1.mutIds, i ∉ t.mutIds) ∧
    (∀ suffixes o, o ∈ (collect_networks_routers t provider fresh suffixes).1 →
      fresh ≤ o.id ∧ o.id ∉ t.mutIds ∧
        ∀ i ∈ o.mutIds, i = o.id ∨ ∃ n ∈ t.networks, i ∈ n.mutIds) ∧
    (∀ suffixes o, o ∈ (collect_networks_routers t provider fresh suffixes).2.1 →
      fresh ≤ o.id ∧ o.id ∉ t.mutIds) := by
  refine ⟨?_, ?_, ?_⟩
  · intro i hi hit
    have h1 := modify_heap_fresh t sfx fresh i hi
    have h2 := hfresh i hit
    omega
  · intro suffixes o ho
    rcases (collect_spec t provider suffixes fresh).2.1 o ho with ⟨h1, h2⟩
    exact ⟨h1, fun hit => by have := hfresh o.id hit; omega, h2⟩
  · intro suffixes o ho
    have h1 := (collect_spec t provider suffixes fresh).2.2 o ho
    exact ⟨h1, fun hit => by have := hfresh o.id hit; omega⟩

/-- C8 witness: the deep copy of the fixture is id-disjoint from the
fixture (id 101 is a clone object, not an input object). -/
theorem clone_copy_semantics_witness :
    (101 : Nat) ∉ TopoV.mutIds topoHeapFix :=
  (clone_copy_semantics topoHeapFix "a" "openstack" 100 (by decide)).1 101 (by decide)

end JsonToTerraform
